import Mathlib

/-!
Verification of the pipeline orchestration engine of the autonomous
software-factory repository.

The embedding follows `src/main_pipeline.py` (the monolithic pipeline):
the `GraphState` record, the agent node functions, the conditional-edge
routers (`decide_after_architect`, `decide_after_planner`,
`decide_after_qa`, `decide_after_validation`, `decide_after_packaging`),
the `code_tester_tool`, and the LangGraph execution loop assembled by
`build_graph`.  External collaborators (the LLM chains, the RAG query
engines, the human at the console, the filesystem) are modelled as
oracle inputs: each node receives, besides the state, the parsed
response the collaborator would have produced, and the deterministic
deterministic control flow is translated literally.  Python falsy tests
(`if not x`) on optional strings and lists are modelled by explicit
truthiness helpers, and the Python `in` substring tests by a decidable
infix check on character lists.
-/

namespace Factory

/-- Status literals of the `test_status` field
(`success`, `compilation_error`, `runtime_error`, `test_fail`, `tool_error`). -/
inductive TestStatus
  | success
  | compilation_error
  | runtime_error
  | test_fail
  | tool_error
deriving DecidableEq

/-- Status literals of the `validation_status` field (`pass`, `fail`, `error`). -/
inductive ValStatus
  | pass
  | fail
  | error
deriving DecidableEq

/-- Dynamically typed Python values appearing in test cases
(inputs and expected outputs of generated functions). -/
inductive Val
  | int (n : Int)
  | str (s : String)
  | bool (b : Bool)
  | none
deriving DecidableEq

/-- One entry of the `TestCase` TypedDict:
`function_name`, `inputs`, `expected_output`. -/
structure TestCase where
  function_name : String
  inputs : List Val
  expected_output : Val
deriving DecidableEq

/-- The dictionary produced by `artifact_packaging_node`
(`package_directory`, `code_file`, `readme_file`). -/
structure PkgInfo where
  package_directory : String
  code_file : String
  readme_file : String
deriving DecidableEq

/-- The decision dictionary of the architect.  The architect node only accepts
parses in which the key `chosen_language` is present, so the field is a
plain string here; a JSON `null` or empty value is modelled as `""`
(both are falsy for the `chosen_language` truthiness check in the router). -/
structure ArchDecision where
  chosen_language : String
  framework_hint : String
  high_level_notes : String
deriving DecidableEq

/-- The `GraphState` TypedDict of `src/main_pipeline.py`.  Counters are
`Nat` (they start at 0 and are only ever incremented or reset). -/
structure GraphState where
  initial_user_request : String
  architectural_decision : Option ArchDecision
  clarified_user_input : Option String
  clarification_questions_for_user : Option (List String)
  planner_iteration_count : Nat
  max_planner_iterations : Nat
  llm_models_config : List (String × String)
  planned_task_description : Option String
  planner_notes : Option String
  task_description : String
  current_test_case : TestCase
  generated_code : Option String
  test_status : Option TestStatus
  test_message : Option String
  critique : Option String
  validation_status : Option ValStatus
  validation_issues : Option (List String)
  packaged_artifacts_info : Option PkgInfo
  handoff_summary : Option String
  feedback_history : List String
  refinement_count : Nat
  max_refinements : Nat
  current_error : Option String
  qa_agent_messages : List String
deriving DecidableEq

/-- Python truthiness of an optional string (`None` and `""` are falsy). -/
def strTruthy : Option String → Bool
  | Option.none => false
  | some s => !s.isEmpty

/-- Python truthiness of an optional list (`None` and `[]` are falsy). -/
def listTruthy : Option (List String) → Bool
  | Option.none => false
  | some l => !l.isEmpty

/-- Python `pat in s` substring test. -/
def strContains (s pat : String) : Bool :=
  decide (pat.toList <:+: s.toList)

/-- Python idiom `errorFieldTruthy and patternInErrorField`
idiom used by the routers: truthy error message containing `pat`. -/
def errContains (e : Option String) (pat : String) : Bool :=
  match e with
  | Option.none => false
  | some s => strContains s pat

/-- Names of the graph nodes plus the reserved `END` target
(`terminal`). -/
inductive Node
  | architect
  | planner
  | human
  | developer
  | qa
  | validation
  | critique
  | packaging
  | handoff
  | terminal
deriving DecidableEq

/-- Router `decide_after_architect` (src/main_pipeline.py lines 645-660). -/
def decide_after_architect (s : GraphState) : Node :=
  if errContains s.current_error "Architect Error" then Node.terminal
  else if (match s.architectural_decision with
           | some d => !d.chosen_language.isEmpty
           | Option.none => false) then Node.planner
  else Node.terminal

/-- Router `decide_after_planner` (src/main_pipeline.py lines 662-684). -/
def decide_after_planner (s : GraphState) : Node :=
  if errContains s.current_error "Planner Error" then Node.terminal
  else if listTruthy s.clarification_questions_for_user
          ∧ s.planner_iteration_count < s.max_planner_iterations then
    Node.human
  else if listTruthy s.clarification_questions_for_user
          ∧ s.planner_iteration_count ≥ s.max_planner_iterations then
    Node.terminal
  else if strTruthy s.planned_task_description then Node.developer
  else Node.terminal

/-- Router `decide_after_qa` (src/main_pipeline.py lines 686-711). -/
def decide_after_qa (s : GraphState) : Node :=
  if errContains s.current_error "Architect Error"
     ∨ errContains s.current_error "Planner Error" then Node.terminal
  else if s.test_status = some TestStatus.success then Node.validation
  else if s.test_status = some TestStatus.tool_error then
    if errContains s.current_error "Developer agent"
       ∨ errContains s.current_error "No parsable code" then
      if s.refinement_count < s.max_refinements then Node.developer else Node.terminal
    else
      if s.refinement_count < s.max_refinements then Node.critique else Node.terminal
  else
    if s.refinement_count < s.max_refinements then Node.critique else Node.terminal

/-- Router `decide_after_validation` (src/main_pipeline.py lines 713-722). -/
def decide_after_validation (s : GraphState) : Node :=
  if s.validation_status = some ValStatus.pass then Node.packaging
  else if s.validation_status = some ValStatus.error then Node.terminal
  else if s.refinement_count < s.max_refinements then Node.critique else Node.terminal

/-- Router `decide_after_packaging` (src/main_pipeline.py lines 724-731). -/
def decide_after_packaging (s : GraphState) : Node :=
  if errContains s.current_error "Packaging Error" then Node.terminal
  else if s.packaged_artifacts_info.isSome then Node.handoff
  else Node.terminal

/-- Parsed output of the architect chain (`SimpleJsonOutputParser` result).
`valid` is a dict that contains the key `chosen_language` and no `error`
key; `invalid` is every other outcome (non-dict text, missing key, or a
parser-error dict), carrying the raw output text used in the message. -/
inductive ArchOut
  | invalid (raw : String)
  | valid (d : ArchDecision)

/-- Node `architect_agent_node` (src/main_pipeline.py lines 315-350),
with the LLM/RAG interaction abstracted into the parsed response. -/
def architect_agent_node (s : GraphState) (r : ArchOut) : GraphState :=
  match r with
  | ArchOut.valid d =>
    { s with
      architectural_decision := some d
      current_error := Option.none
      planned_task_description := Option.none
      planner_notes := Option.none
      task_description := ""
      clarified_user_input := Option.none
      clarification_questions_for_user := Option.none
      planner_iteration_count := 0
      generated_code := Option.none
      test_status := Option.none
      critique := Option.none
      validation_status := Option.none
      packaged_artifacts_info := Option.none
      handoff_summary := Option.none
      feedback_history := []
      refinement_count := 0 }
  | ArchOut.invalid raw =>
    { s with
      architectural_decision := Option.none
      current_error := some ("Architect Error: Invalid output format or missing key fields from LLM. Output: " ++ raw) }

/-- Parsed output of the planner chain.  A non-list
`clarification_questions` value is repaired to `[]` by the node, so
`questions` is a plain list; `planned` and `notes` are the optional
`planned_task_description` / `planner_notes` values. -/
inductive PlanOut
  | invalid (raw : String)
  | parsed (questions : List String) (planned : Option String) (notes : Option String)

/-- Common return dictionary of `planner_agent_node` (the literal update
at src/main_pipeline.py lines 393-403). -/
def plannerResult (s : GraphState) (newCount : Nat) (qs : List String)
    (pd notes err : Option String) : GraphState :=
  { s with
    planned_task_description := pd
    task_description := (match pd with
      | some p => if p.isEmpty then s.task_description else p
      | Option.none => s.task_description)
    planner_notes := notes
    clarification_questions_for_user := if qs.isEmpty then Option.none else some qs
    clarified_user_input := Option.none
    planner_iteration_count := newCount
    current_error := err
    critique := Option.none
    validation_status := Option.none
    validation_issues := some []
    packaged_artifacts_info := Option.none
    handoff_summary := Option.none
    generated_code := Option.none
    test_status := Option.none
    test_message := Option.none
    feedback_history := if newCount = 1 then [] else s.feedback_history
    refinement_count := if newCount = 1 then 0 else s.refinement_count }

/-- Node `planner_agent_node` (src/main_pipeline.py lines 352-403). -/
def planner_agent_node (s : GraphState) (r : PlanOut) : GraphState :=
  match s.architectural_decision with
  | Option.none =>
    { s with
      current_error := some "Planner Error: Missing or invalid architectural decision from Architect."
      clarification_questions_for_user := Option.none }
  | some _ =>
    let newCount := s.planner_iteration_count + 1
    match r with
    | PlanOut.invalid raw =>
      plannerResult s newCount [] Option.none Option.none
        (some ("Planner Error: Invalid output format from LLM or parsing error. Output: " ++ raw))
    | PlanOut.parsed qs planned notes =>
      if qs.isEmpty then
        plannerResult s newCount [] planned notes
          (if strTruthy planned then Option.none
           else some "Planner Error: No plan provided and no clarification questions asked by LLM.")
      else
        plannerResult s newCount qs Option.none Option.none Option.none

/-- Node `human_interaction_node` (src/main_pipeline.py lines 405-421);
the console answers are the oracle input (the input loop guarantees one
answer per question). -/
def human_interaction_node (s : GraphState) (answers : List String) : GraphState :=
  match s.clarification_questions_for_user with
  | Option.none => s
  | some [] => s
  | some qs =>
    let answerStrs := (qs.enum.map fun qi =>
      "Answer to \x27" ++ qi.2 ++ "\x27: " ++ (answers.getD qi.1 ""))
    { s with
      clarified_user_input := some ("Original Request: \x27" ++ s.initial_user_request
        ++ "\x27. User Clarifications: " ++ String.intercalate "; " answerStrs)
      clarification_questions_for_user := Option.none
      current_error := Option.none }

/-- Raw LLM response of the developer chain together with the result of
`extract_python_code` applied to it (the regex extraction itself is
abstracted; `extracted = none` when no fenced code block was found). -/
structure DevOut where
  raw : String
  extracted : Option String

/-- Node `developer_agent_node` (src/main_pipeline.py lines 423-465). -/
def developer_agent_node (s : GraphState) (r : DevOut) : GraphState :=
  if s.task_description.isEmpty ∨ strContains s.task_description "Error:" then
    { s with
      generated_code := Option.none
      test_status := some TestStatus.tool_error
      current_error := some s.task_description
      refinement_count := s.refinement_count + 1 }
  else
    let currentAttempt := s.refinement_count + 1
    if strTruthy r.extracted then
      { s with
        generated_code := r.extracted
        refinement_count := currentAttempt
        current_error := Option.none
        critique := Option.none
        validation_status := Option.none
        validation_issues := some []
        packaged_artifacts_info := Option.none
        handoff_summary := Option.none }
    else
      { s with
        generated_code := Option.none
        test_status := some TestStatus.tool_error
        test_message := some "Developer agent failed to produce a parsable code block."
        current_error := some "Developer agent failed to produce a parsable code block."
        refinement_count := currentAttempt
        feedback_history := s.feedback_history
          ++ ["DevAttempt " ++ toString currentAttempt
              ++ ": Failed to generate parsable code. LLM raw output snippet: \x27"
              ++ r.raw.take 100 ++ "...\x27"] }

/-- Outcome of the QA `AgentExecutor` run: the agent ran the
`code_tester_tool` and its observation dict was read back (`toolRun`);
the agent answered without using the tool (`noTool`); or the executor
raised (`agentError`). -/
inductive QaOut
  | toolRun (st : TestStatus) (msg : String)
  | noTool (output : String)
  | agentError (msg : String)

/-- Node `qa_agent_node` (src/main_pipeline.py lines 553-602). -/
def qa_agent_node (s : GraphState) (r : QaOut) : GraphState :=
  if !strTruthy s.generated_code then
    { s with
      test_status := some TestStatus.tool_error
      test_message := some "No code from dev for QA." }
  else
    let res : TestStatus × String :=
      match r with
      | QaOut.toolRun st m => (st, m)
      | QaOut.noTool out => (TestStatus.tool_error, out)
      | QaOut.agentError m => (TestStatus.tool_error, "QA agent encountered an error: " ++ m)
    { s with
      test_status := some res.1
      test_message := some res.2
      current_error := Option.none
      qa_agent_messages := []
      validation_status := Option.none
      validation_issues := some []
      packaged_artifacts_info := Option.none
      handoff_summary := Option.none }

/-- Parsed output of the validation chain: a parser error, or a dict
with `validation_passed` (missing key defaults to `False`) and
`issues_found` (a non-list value is repaired to a list by the node). -/
inductive ValOut
  | invalid (raw : String)
  | parsed (passed : Bool) (issues : List String)

/-- Node `validation_agent_node` (src/main_pipeline.py lines 467-505). -/
def validation_agent_node (s : GraphState) (r : ValOut) : GraphState :=
  if !strTruthy s.generated_code then
    { s with
      validation_status := some ValStatus.error
      validation_issues := some ["No code provided for validation."]
      current_error := some "Validation: No code." }
  else
    let res : ValStatus × List String :=
      match r with
      | ValOut.invalid raw =>
        (ValStatus.error,
         ["Validation agent did not return expected JSON format or encountered parsing error. Output: " ++ raw])
      | ValOut.parsed passed issues =>
        if passed ∧ issues.isEmpty then (ValStatus.pass, issues)
        else if passed ∧ !issues.isEmpty then
          (ValStatus.fail, issues ++ ["Internal Consistency: LLM reported pass but listed issues."])
        else if !passed ∧ issues.isEmpty then
          (ValStatus.fail, ["Validation failed but no specific issues were reported by the validation agent."])
        else (ValStatus.fail, issues)
    { s with
      validation_status := some res.1
      validation_issues := some res.2
      current_error := Option.none }

/-- Node `critique_agent_node` (src/main_pipeline.py lines 507-551);
the text of the critique chain is the oracle input. -/
def critique_agent_node (s : GraphState) (critiqueText : String) : GraphState :=
  let testFailureMsg := s.test_message.getD ""
  let valIssues := (s.validation_issues).getD []
  let reasonNonempty :=
    (s.test_status ≠ some TestStatus.success ∧ s.test_status ≠ some TestStatus.tool_error
      ∧ s.test_status ≠ Option.none ∧ !testFailureMsg.isEmpty)
    ∨ !valIssues.isEmpty
  if !strTruthy s.generated_code then
    { s with
      critique := some "Error: No code provided to critique."
      current_error := some "Critique: No code." }
  else
    let out := if reasonNonempty then critiqueText
      else "The previous step resulted in an error or an issue that needs developer attention. Please review the logs and the task requirements carefully to identify the problem and generate corrected code."
    { s with
      critique := some out
      current_error := Option.none
      feedback_history := s.feedback_history
        ++ (if !testFailureMsg.isEmpty then
              ["Raw Test Failure (DevAttempt " ++ toString s.refinement_count ++ "): " ++ testFailureMsg]
            else [])
        ++ (if !valIssues.isEmpty then
              ["Raw Validation Issues (DevAttempt " ++ toString s.refinement_count ++ "): "
                ++ String.intercalate "; " valIssues]
            else [])
        ++ ["Critique on DevAttempt " ++ toString s.refinement_count ++ ": " ++ out] }

/-- Filesystem outcome of `artifact_packaging_node`: the created paths,
or the exception message when a file operation raised. -/
inductive PkgOut
  | ok (dir codeFile readmeFile : String)
  | exc (msg : String)

/-- Node `artifact_packaging_node` (src/main_pipeline.py lines 604-624). -/
def artifact_packaging_node (s : GraphState) (r : PkgOut) : GraphState :=
  if !strTruthy s.generated_code then
    { s with current_error := some "Packaging: No code." }
  else
    match r with
    | PkgOut.ok d c rm =>
      { s with
        packaged_artifacts_info := some ⟨d, c, rm⟩
        current_error := Option.none }
    | PkgOut.exc m =>
      { s with current_error := some ("Packaging Error: " ++ m) }

/-- Node `handoff_node` (src/main_pipeline.py lines 626-641). -/
def handoff_node (s : GraphState) : GraphState :=
  match s.packaged_artifacts_info with
  | Option.none =>
    { s with
      handoff_summary := some ("Handoff for \x27" ++ s.task_description.take 50
        ++ "...\x27: Failed, no packaged artifacts information found.")
      current_error := some "Handoff: No artifact info." }
  | some p =>
    { s with
      handoff_summary := some ("Project \x27" ++ s.task_description.take 50
        ++ "...\x27 completed successfully!\n  Artifacts packaged in directory: "
        ++ p.package_directory ++ "\n  - Code File: " ++ p.code_file
        ++ "\n  - README File: " ++ p.readme_file
        ++ "\nReady for human review and deployment.")
      current_error := Option.none }

/-- Outcome of executing the submitted code inside `code_tester_tool`:
`exec` raises, the entry point is not defined, calling it raises, or it
returns a value. -/
inductive ExecEnv
  | raisesOnExec (msg : String)
  | noFn
  | raisesOnCall (msg : String)
  | returns (v : Val)

/-- Result dictionary of `code_tester_tool`. -/
structure ToolResult where
  status : TestStatus
  message : String
  actual_output : Option Val
deriving DecidableEq

/-- Printable form of a `Val`, used in the `test_fail` message. -/
def valRepr : Val → String
  | Val.int n => toString n
  | Val.str s => "\x27" ++ s ++ "\x27"
  | Val.bool b => if b then "True" else "False"
  | Val.none => "None"

/-- Tool `code_tester_tool` (src/main_pipeline.py lines 191-200), with the
Python execution of the submitted code abstracted into `ExecEnv`.  The
whole body after the empty-code guard runs inside `try/except Exception`,
which turns any raised exception into a `runtime_error` result. -/
def code_tester_tool (code_string : String) (function_name : String)
    (test_inputs : List Val) (expected_output : Val) (env : ExecEnv) : ToolResult :=
  if code_string.isEmpty then
    ⟨TestStatus.compilation_error, "No code provided.", Option.none⟩
  else
    match env with
    | ExecEnv.raisesOnExec m => ⟨TestStatus.runtime_error, m, Option.none⟩
    | ExecEnv.noFn =>
      ⟨TestStatus.compilation_error,
       "Function \x27" ++ function_name ++ "\x27 not defined.", Option.none⟩
    | ExecEnv.raisesOnCall m => ⟨TestStatus.runtime_error, m, Option.none⟩
    | ExecEnv.returns v =>
      if v = expected_output then ⟨TestStatus.success, "Test passed.", some v⟩
      else
        ⟨TestStatus.test_fail,
         "Input: (" ++ String.intercalate ", " (test_inputs.map valRepr)
           ++ "), Expected: " ++ valRepr expected_output ++ ", Got: " ++ valRepr v,
         some v⟩

/-- Collaborator responses for one orchestration step. -/
structure Resp where
  arch : ArchOut
  plan : PlanOut
  human : List String
  dev : DevOut
  qa : QaOut
  val : ValOut
  critiqueText : String
  pkg : PkgOut

/-- A configuration of the execution engine: current node and state. -/
structure Config where
  node : Node
  state : GraphState

/-- One transition of the execution engine assembled by `build_graph`
(src/main_pipeline.py lines 734-764): execute the current node, merge
its update, then follow the unconditional edge of the node or evaluate its
conditional-edge router. -/
def step (c : Config) (r : Resp) : Config :=
  match c.node with
  | Node.architect =>
    let s := architect_agent_node c.state r.arch
    ⟨decide_after_architect s, s⟩
  | Node.planner =>
    let s := planner_agent_node c.state r.plan
    ⟨decide_after_planner s, s⟩
  | Node.human =>
    let s := human_interaction_node c.state r.human
    ⟨Node.planner, s⟩
  | Node.developer =>
    let s := developer_agent_node c.state r.dev
    ⟨Node.qa, s⟩
  | Node.qa =>
    let s := qa_agent_node c.state r.qa
    ⟨decide_after_qa s, s⟩
  | Node.validation =>
    let s := validation_agent_node c.state r.val
    ⟨decide_after_validation s, s⟩
  | Node.critique =>
    let s := critique_agent_node c.state r.critiqueText
    ⟨Node.developer, s⟩
  | Node.packaging =>
    let s := artifact_packaging_node c.state r.pkg
    ⟨decide_after_packaging s, s⟩
  | Node.handoff =>
    let s := handoff_node c.state
    ⟨Node.terminal, s⟩
  | Node.terminal => c

/-- Run-to-completion execution: the configuration after `n` engine
steps from the entry point `architect_agent_node`, with `o` supplying
the collaborator responses. -/
def runCfg (o : Nat → Resp) (s₀ : GraphState) : Nat → Config
  | 0 => ⟨Node.architect, s₀⟩
  | n + 1 => step (runCfg o s₀ n) (o n)

/-- Success indication of a final state, as checked by `run_demo`
(src/main_pipeline.py lines 824-828): successful test status, passed
validation, packaged artifacts and a populated handoff summary. -/
def successIndication (s : GraphState) : Prop :=
  s.test_status = some TestStatus.success
  ∧ s.validation_status = some ValStatus.pass
  ∧ s.packaged_artifacts_info.isSome = true
  ∧ strTruthy s.handoff_summary = true

/-- Truthiness of `architectural_decision.get("chosen_language")`,
the condition `decide_after_architect` uses to proceed. -/
def archLangTruthy (s : GraphState) : Bool :=
  match s.architectural_decision with
  | some d => !d.chosen_language.isEmpty
  | Option.none => false

/-- A terminal state that explains its outcome: a success indication, a
populated fatal-error slot, or a failing status/counter combination
identifying the failing phase (validation error, refinement cap reached
with a non-success outcome, planner cap reached with outstanding
questions, or an unusable architectural decision). -/
def explainedTerminal (s : GraphState) : Prop :=
  successIndication s
  ∨ strTruthy s.current_error = true
  ∨ s.validation_status = some ValStatus.error
  ∨ (s.max_refinements ≤ s.refinement_count
      ∧ (s.test_status ≠ some TestStatus.success ∨ s.validation_status = some ValStatus.fail))
  ∨ (listTruthy s.clarification_questions_for_user = true
      ∧ s.max_planner_iterations ≤ s.planner_iteration_count)
  ∨ archLangTruthy s = false

/-- Rank of a node along the forward path of the graph, used by the
termination measure.  Backward edges point from higher to lower rank
except `developer → qa`, which instead consumes refinement budget. -/
def rank : Node → Nat
  | Node.terminal => 0
  | Node.handoff => 1
  | Node.packaging => 2
  | Node.developer => 2
  | Node.critique => 3
  | Node.validation => 4
  | Node.qa => 5
  | Node.planner => 7
  | Node.human => 8
  | Node.architect => 9

/-- Remaining budget of the outer clarification loop. -/
def pBudget (s : GraphState) : Nat :=
  s.max_planner_iterations + 1 - s.planner_iteration_count

/-- Remaining budget of the inner refinement loop. -/
def rBudget (s : GraphState) : Nat :=
  s.max_refinements + 1 - s.refinement_count

/-- Weight of one unit of outer-loop budget: large enough to dominate a
full refill of the inner refinement budget plus any rank change. -/
def planWeight (s : GraphState) : Nat := 10 * s.max_refinements + 20

/-- Termination measure on engine configurations.  The entry node is
given the measure of a full budget refill, since it resets both
counters. -/
def stepMeasure (c : Config) : Nat :=
  match c.node with
  | Node.architect =>
    planWeight c.state * (c.state.max_planner_iterations + 2)
      + 10 * (c.state.max_refinements + 2) + 9
  | n => planWeight c.state * pBudget c.state + 10 * rBudget c.state + rank n

/-- Closed-form step bound, a function of the two loop caps only. -/
def stepBound (maxP maxR : Nat) : Nat :=
  (10 * maxR + 20) * (maxP + 2) + 10 * (maxR + 2) + 10

/-- Invariant: at the nodes of the two loops, the refinement counter
has not overshot its cap (re-entry is guarded by `ref_count < max_ref`). -/
def InvRef (c : Config) : Prop :=
  (c.node = Node.planner ∨ c.node = Node.human ∨ c.node = Node.developer
    ∨ c.node = Node.critique) →
  c.state.refinement_count ≤ c.state.max_refinements

/-- Invariant: the planner and the suspension node always see the
accepted decision dictionary of the architect. -/
def InvArch (c : Config) : Prop :=
  (c.node = Node.planner ∨ c.node = Node.human) →
  c.state.architectural_decision.isSome = true

/-- Invariant: the refinement counter is 0 whenever the planner or the
suspension node is about to run (the clarification loop happens before
any developer attempt). -/
def InvRefZero (c : Config) : Prop :=
  (c.node = Node.planner ∨ c.node = Node.human) →
  c.state.refinement_count = 0

/-- Invariant feeding the terminal-state analysis: the success-path
nodes only run with the statuses their routers checked. -/
def InvSuccess (c : Config) : Prop :=
  (c.node = Node.validation → c.state.test_status = some TestStatus.success)
  ∧ (c.node = Node.packaging → c.state.test_status = some TestStatus.success
      ∧ c.state.validation_status = some ValStatus.pass)
  ∧ (c.node = Node.handoff → c.state.test_status = some TestStatus.success
      ∧ c.state.validation_status = some ValStatus.pass
      ∧ c.state.packaged_artifacts_info.isSome = true)

/-- Invariant feeding the feedback-log analysis: the log is empty at the
entry node and at the first planner iteration, and the suspension node
only runs after at least one planner iteration. -/
def InvFeedback (c : Config) : Prop :=
  (c.node = Node.architect → c.state.feedback_history = [])
  ∧ (c.node = Node.planner → c.state.planner_iteration_count = 0 →
      c.state.feedback_history = [])
  ∧ (c.node = Node.human → 1 ≤ c.state.planner_iteration_count)

/-- An accepted architect decision used by the concrete runs below. -/
def archD : ArchDecision := ⟨"python", "standard_library", "keep it simple"⟩

/-- The demo test case (src/main_pipeline.py line 802). -/
def demoCase : TestCase := ⟨"greet_user", [Val.str "Alice"], Val.str "Hello, Alice!"⟩

/-- A freshly initialized state record, as built by `run_demo`
(src/main_pipeline.py lines 794-808): optional fields empty, counters 0,
caps 2 and 3. -/
def initState : GraphState :=
  ⟨"make a greeting function", Option.none, Option.none, Option.none, 0, 2, [],
   Option.none, Option.none, "", demoCase, Option.none, Option.none, Option.none,
   Option.none, Option.none, some [], Option.none, Option.none, [], 0, 3,
   Option.none, []⟩

/-- Collaborator responses for a fully successful run. -/
def respHappy : Resp :=
  ⟨ArchOut.valid archD,
   PlanOut.parsed [] (some "Implement greet_user") (some "use a docstring"),
   ["English"],
   ⟨"raw", some "def greet_user(name): return greeting"⟩,
   QaOut.toolRun TestStatus.success "Test passed.",
   ValOut.parsed true [],
   "tighten the docstring",
   PkgOut.ok "dir" "code.py" "README.md"⟩

/-- Oracle replaying `respHappy` at every step. -/
def oHappy : Nat → Resp := fun _ => respHappy

/-- Collaborator responses for a run whose functional test always fails. -/
def respFail : Resp := { respHappy with qa := QaOut.toolRun TestStatus.test_fail "Expected X, got Y" }

/-- Oracle replaying `respFail` at every step. -/
def oFail : Nat → Resp := fun _ => respFail

/-- Initial state with the refinement cap set to 1, so a single failing
attempt exhausts the inner loop. -/
def sFailInit : GraphState := { initState with max_refinements := 1 }

/-- State at the refinement cap with a failing test status and an empty
fatal-error slot, as produced by the QA node after the last allowed
developer attempt. -/
def s1cap : GraphState :=
  { initState with test_status := some TestStatus.test_fail, refinement_count := 3 }

/-- State whose expected status field is unset while the refinement
counter is below its cap. -/
def s4unset : GraphState := { initState with generated_code := some "def g(): return 1" }

/-- State holding generated code, ready for validation. -/
def s10code : GraphState := { initState with generated_code := some "def h(): return 2" }

/-- State after a failed validation with one refinement attempt used. -/
def s5fail : GraphState :=
  { initState with validation_status := some ValStatus.fail, refinement_count := 1 }

/-- State carrying outstanding clarification questions below the outer
cap together with a planner-error fatal slot. -/
def s6err : GraphState :=
  { initState with
    clarification_questions_for_user := some ["Which language?"]
    current_error := some "Planner Error: Invalid output format from LLM or parsing error. Output: x" }

/-- State carrying outstanding clarification questions below the outer
cap and no fatal error. -/
def s6clean : GraphState :=
  { initState with clarification_questions_for_user := some ["Which language?"] }

/-- Planner input state with a nonzero refinement counter at the second
planner iteration. -/
def s3dirty : GraphState :=
  { initState with
    architectural_decision := some archD
    refinement_count := 5
    planner_iteration_count := 1 }

/-- Planner response producing a plan and no questions. -/
def r3plan : PlanOut := PlanOut.parsed [] (some "Implement greet_user") Option.none

end Factory

namespace Factory

/-- A string whose characters contain a nonempty pattern as an infix is
itself truthy. -/
theorem errContains_truthy {e : Option String} {pat : String}
    (h : errContains e pat = true) (hp : pat ≠ "") : strTruthy e = true := by
  cases e with
  | none => simp [errContains] at h
  | some s =>
    simp only [errContains, strContains, decide_eq_true_eq] at h
    simp only [strTruthy]
    cases hem : s.isEmpty with
    | false => simp
    | true =>
      exfalso
      rw [String.isEmpty_iff] at hem
      subst hem
      obtain ⟨u, v, huv⟩ := h
      simp only [show ("" : String).toList = [] from rfl, List.append_eq_nil] at huv
      apply hp
      apply String.ext
      exact huv.1.2

/-- Case analysis of `decide_after_qa`: the router is exhaustive over its
dispatch table, and both loop re-entries require remaining refinement
budget. -/
theorem qa_router_cases (s : GraphState) :
    decide_after_qa s = Node.validation
    ∨ decide_after_qa s = Node.terminal
    ∨ (decide_after_qa s = Node.critique ∧ s.refinement_count < s.max_refinements)
    ∨ (decide_after_qa s = Node.developer ∧ s.refinement_count < s.max_refinements) := by
  unfold decide_after_qa
  split
  · simp
  split
  · simp
  split
  · split
    · split <;> simp_all
    · split <;> simp_all
  · split <;> simp_all

/-- Case analysis of `decide_after_planner`. -/
theorem planner_router_cases (s : GraphState) :
    (decide_after_planner s = Node.human
      ∧ s.planner_iteration_count < s.max_planner_iterations)
    ∨ decide_after_planner s = Node.developer
    ∨ decide_after_planner s = Node.terminal := by
  unfold decide_after_planner
  split
  · simp
  split
  · rename_i h
    exact Or.inl ⟨rfl, h.2⟩
  split
  · simp
  split <;> simp

/-- Case analysis of `decide_after_validation`. -/
theorem validation_router_cases (s : GraphState) :
    decide_after_validation s = Node.packaging
    ∨ decide_after_validation s = Node.terminal
    ∨ (decide_after_validation s = Node.critique
        ∧ s.refinement_count < s.max_refinements) := by
  unfold decide_after_validation
  split
  · simp
  split
  · simp
  split <;> simp_all

/-- Case analysis of `decide_after_architect`. -/
theorem architect_router_cases (s : GraphState) :
    decide_after_architect s = Node.planner
    ∨ decide_after_architect s = Node.terminal := by
  unfold decide_after_architect
  split
  · simp
  split <;> simp

/-- Case analysis of `decide_after_packaging`. -/
theorem packaging_router_cases (s : GraphState) :
    decide_after_packaging s = Node.handoff
    ∨ decide_after_packaging s = Node.terminal := by
  unfold decide_after_packaging
  split
  · simp
  split <;> simp

end Factory

namespace Factory

/-- The QA node never touches the loop counters or their caps. -/
theorem qa_counters (s : GraphState) (r : QaOut) :
    (qa_agent_node s r).refinement_count = s.refinement_count
    ∧ (qa_agent_node s r).max_refinements = s.max_refinements
    ∧ (qa_agent_node s r).planner_iteration_count = s.planner_iteration_count
    ∧ (qa_agent_node s r).max_planner_iterations = s.max_planner_iterations := by
  unfold qa_agent_node
  split <;> simp

/-- The validation node never touches the loop counters or their caps. -/
theorem validation_counters (s : GraphState) (r : ValOut) :
    (validation_agent_node s r).refinement_count = s.refinement_count
    ∧ (validation_agent_node s r).max_refinements = s.max_refinements
    ∧ (validation_agent_node s r).planner_iteration_count = s.planner_iteration_count
    ∧ (validation_agent_node s r).max_planner_iterations = s.max_planner_iterations := by
  unfold validation_agent_node
  split <;> simp

/-- The critique node never touches the loop counters or their caps. -/
theorem critique_counters (s : GraphState) (t : String) :
    (critique_agent_node s t).refinement_count = s.refinement_count
    ∧ (critique_agent_node s t).max_refinements = s.max_refinements
    ∧ (critique_agent_node s t).planner_iteration_count = s.planner_iteration_count
    ∧ (critique_agent_node s t).max_planner_iterations = s.max_planner_iterations := by
  unfold critique_agent_node
  simp only []
  split <;> simp

/-- The suspension node never touches the loop counters or their caps. -/
theorem human_counters (s : GraphState) (a : List String) :
    (human_interaction_node s a).refinement_count = s.refinement_count
    ∧ (human_interaction_node s a).max_refinements = s.max_refinements
    ∧ (human_interaction_node s a).planner_iteration_count = s.planner_iteration_count
    ∧ (human_interaction_node s a).max_planner_iterations = s.max_planner_iterations := by
  unfold human_interaction_node
  split <;> simp

/-- The packaging node never touches the loop counters or their caps. -/
theorem packaging_counters (s : GraphState) (r : PkgOut) :
    (artifact_packaging_node s r).refinement_count = s.refinement_count
    ∧ (artifact_packaging_node s r).max_refinements = s.max_refinements
    ∧ (artifact_packaging_node s r).planner_iteration_count = s.planner_iteration_count
    ∧ (artifact_packaging_node s r).max_planner_iterations = s.max_planner_iterations := by
  unfold artifact_packaging_node
  split
  · simp
  split <;> simp

/-- The handoff node never touches the loop counters or their caps. -/
theorem handoff_counters (s : GraphState) :
    (handoff_node s).refinement_count = s.refinement_count
    ∧ (handoff_node s).max_refinements = s.max_refinements
    ∧ (handoff_node s).planner_iteration_count = s.planner_iteration_count
    ∧ (handoff_node s).max_planner_iterations = s.max_planner_iterations := by
  unfold handoff_node
  split <;> simp

/-- The developer node increments the refinement counter by exactly 1 on
every invocation, in all three of its branches, and preserves the other
counters and caps. -/
theorem developer_counters (s : GraphState) (r : DevOut) :
    (developer_agent_node s r).refinement_count = s.refinement_count + 1
    ∧ (developer_agent_node s r).max_refinements = s.max_refinements
    ∧ (developer_agent_node s r).planner_iteration_count = s.planner_iteration_count
    ∧ (developer_agent_node s r).max_planner_iterations = s.max_planner_iterations := by
  unfold developer_agent_node
  split
  · simp
  split <;> simp

/-- The first branch of the planner node: with a missing architectural
decision it only sets the fatal-error slot and clears the questions. -/
theorem planner_noarch (s : GraphState) (r : PlanOut)
    (h : s.architectural_decision = Option.none) :
    planner_agent_node s r =
      { s with
        current_error := some "Planner Error: Missing or invalid architectural decision from Architect."
        clarification_questions_for_user := Option.none } := by
  unfold planner_agent_node
  rw [h]

/-- With the architect decision present, the planner increments the
clarification counter by exactly 1, preserves the caps, and resets the
refinement counter exactly when the new count is 1. -/
theorem planner_counters (s : GraphState) (r : PlanOut) (d : ArchDecision)
    (h : s.architectural_decision = some d) :
    (planner_agent_node s r).planner_iteration_count = s.planner_iteration_count + 1
    ∧ (planner_agent_node s r).max_refinements = s.max_refinements
    ∧ (planner_agent_node s r).max_planner_iterations = s.max_planner_iterations
    ∧ (planner_agent_node s r).refinement_count
        = (if s.planner_iteration_count = 0 then 0 else s.refinement_count) := by
  unfold planner_agent_node
  rw [h]
  dsimp only
  cases r with
  | invalid raw => simp [plannerResult]
  | parsed qs planned notes =>
    dsimp only
    split <;> simp [plannerResult]

/-- Appending text cannot remove an infix already present. -/
theorem strContains_append_left {base pat : String} (raw : String)
    (h : strContains base pat = true) : strContains (base ++ raw) pat = true := by
  simp only [strContains, decide_eq_true_eq] at h ⊢
  have hb : base.toList <+: (base ++ raw).toList := by
    show base.data <+: (base ++ raw).data
    rw [String.data_append]
    exact List.prefix_append _ _
  exact h.trans hb.isInfix

/-- An architect parse failure routes to Terminal: the node records an
`Architect Error` message, which the router detects. -/
theorem architect_invalid_routes_end (s : GraphState) (raw : String) :
    decide_after_architect (architect_agent_node s (ArchOut.invalid raw)) = Node.terminal := by
  have hc : strContains
      ("Architect Error: Invalid output format or missing key fields from LLM. Output: " ++ raw)
      "Architect Error" = true :=
    strContains_append_left raw (by decide)
  simp [architect_agent_node, decide_after_architect, errContains, hc]

/-- A planner run without an architectural decision routes to Terminal. -/
theorem planner_noarch_routes_end (s : GraphState) (r : PlanOut)
    (h : s.architectural_decision = Option.none) :
    decide_after_planner (planner_agent_node s r) = Node.terminal := by
  have hc : errContains
      (some "Planner Error: Missing or invalid architectural decision from Architect.")
      "Planner Error" = true := by decide
  rw [planner_noarch s r h]
  simp [decide_after_planner, hc]

end Factory

namespace Factory

/-- The QA router re-enters the critique loop only below the refinement cap. -/
theorem qa_critique_guard (s : GraphState) (h : decide_after_qa s = Node.critique) :
    s.refinement_count < s.max_refinements := by
  rcases qa_router_cases s with h1 | h1 | ⟨h1, h2⟩ | ⟨h1, h2⟩
  · exact absurd (h1.symm.trans h) (by decide)
  · exact absurd (h1.symm.trans h) (by decide)
  · exact h2
  · exact absurd (h1.symm.trans h) (by decide)

/-- The QA router retries the developer only below the refinement cap. -/
theorem qa_developer_guard (s : GraphState) (h : decide_after_qa s = Node.developer) :
    s.refinement_count < s.max_refinements := by
  rcases qa_router_cases s with h1 | h1 | ⟨h1, h2⟩ | ⟨h1, h2⟩
  · exact absurd (h1.symm.trans h) (by decide)
  · exact absurd (h1.symm.trans h) (by decide)
  · exact absurd (h1.symm.trans h) (by decide)
  · exact h2

/-- The validation router re-enters the critique loop only below the cap. -/
theorem validation_critique_guard (s : GraphState)
    (h : decide_after_validation s = Node.critique) :
    s.refinement_count < s.max_refinements := by
  rcases validation_router_cases s with h1 | h1 | ⟨h1, h2⟩
  · exact absurd (h1.symm.trans h) (by decide)
  · exact absurd (h1.symm.trans h) (by decide)
  · exact h2

/-- The planner router suspends for human input only below the outer cap. -/
theorem planner_human_guard (s : GraphState)
    (h : decide_after_planner s = Node.human) :
    s.planner_iteration_count < s.max_planner_iterations := by
  rcases planner_router_cases s with ⟨h1, h2⟩ | h1 | h1
  · exact h2
  · exact absurd (h1.symm.trans h) (by decide)
  · exact absurd (h1.symm.trans h) (by decide)

/-- A terminal configuration is a fixed point of the engine. -/
theorem step_terminal (s : GraphState) (r : Resp) :
    step ⟨Node.terminal, s⟩ r = ⟨Node.terminal, s⟩ := rfl

/-- Once a run reaches Terminal it stays there with an unchanged state. -/
theorem runCfg_terminal_stable (o : Nat → Resp) (s₀ : GraphState) (n : Nat)
    (h : (runCfg o s₀ n).node = Node.terminal) :
    runCfg o s₀ (n + 1) = runCfg o s₀ n := by
  show step (runCfg o s₀ n) (o n) = runCfg o s₀ n
  rcases hc : runCfg o s₀ n with ⟨m, s⟩
  rw [hc] at h
  have h2 : m = Node.terminal := h
  subst h2
  rfl

/-- The refinement-counter invariant is preserved by every engine step. -/
theorem invRef_step (c : Config) (r : Resp) (h : InvRef c) : InvRef (step c r) := by
  obtain ⟨n, s⟩ := c
  cases n with
  | architect =>
    cases harch : r.arch with
    | valid d =>
      unfold InvRef
      intro _
      simp only [step]
      rw [harch]
      simp [architect_agent_node]
    | invalid raw =>
      unfold InvRef
      simp only [step]
      rw [harch, architect_invalid_routes_end s raw]
      intro hmem
      rcases hmem with h1 | h1 | h1 | h1 <;> simp at h1
  | planner =>
    cases harch : s.architectural_decision with
    | none =>
      unfold InvRef
      simp only [step]
      rw [planner_noarch_routes_end s r.plan harch]
      intro hmem
      rcases hmem with h1 | h1 | h1 | h1 <;> simp at h1
    | some d =>
      have hc := planner_counters s r.plan d harch
      have hs : s.refinement_count ≤ s.max_refinements := h (Or.inl rfl)
      unfold InvRef
      intro _
      simp only [step]
      rw [hc.2.2.2, hc.2.1]
      split <;> omega
  | human =>
    have hc := human_counters s r.human
    have hs : s.refinement_count ≤ s.max_refinements := h (Or.inr (Or.inl rfl))
    unfold InvRef
    intro _
    simp only [step]
    rw [hc.1, hc.2.1]
    exact hs
  | developer =>
    unfold InvRef
    simp only [step]
    intro hmem
    rcases hmem with h1 | h1 | h1 | h1 <;> simp at h1
  | qa =>
    unfold InvRef
    simp only [step]
    intro hmem
    rcases qa_router_cases (qa_agent_node s r.qa) with h1 | h1 | ⟨h1, h2⟩ | ⟨h1, h2⟩
    · rw [h1] at hmem
      rcases hmem with h3 | h3 | h3 | h3 <;> simp at h3
    · rw [h1] at hmem
      rcases hmem with h3 | h3 | h3 | h3 <;> simp at h3
    · omega
    · omega
  | validation =>
    unfold InvRef
    simp only [step]
    intro hmem
    rcases validation_router_cases (validation_agent_node s r.val) with h1 | h1 | ⟨h1, h2⟩
    · rw [h1] at hmem
      rcases hmem with h3 | h3 | h3 | h3 <;> simp at h3
    · rw [h1] at hmem
      rcases hmem with h3 | h3 | h3 | h3 <;> simp at h3
    · omega
  | critique =>
    have hc := critique_counters s r.critiqueText
    have hs : s.refinement_count ≤ s.max_refinements := h (Or.inr (Or.inr (Or.inr rfl)))
    unfold InvRef
    intro _
    simp only [step]
    rw [hc.1, hc.2.1]
    exact hs
  | packaging =>
    unfold InvRef
    simp only [step]
    intro hmem
    rcases packaging_router_cases (artifact_packaging_node s r.pkg) with h1 | h1 <;>
      rw [h1] at hmem <;> rcases hmem with h3 | h3 | h3 | h3 <;> simp at h3
  | handoff =>
    unfold InvRef
    simp only [step]
    intro hmem
    rcases hmem with h1 | h1 | h1 | h1 <;> simp at h1
  | terminal => exact h

end Factory

namespace Factory

/-- Every engine step from a non-terminal configuration strictly
decreases the termination measure (given the counter invariant). -/
theorem stepMeasure_decreases (c : Config) (r : Resp) (hInv : InvRef c)
    (hne : c.node ≠ Node.terminal) :
    stepMeasure (step c r) < stepMeasure c := by
  obtain ⟨n, s⟩ := c
  cases n with
  | architect =>
    cases harch : r.arch with
    | valid d =>
      simp only [step]
      rw [harch]
      have hb : (10 * s.max_refinements + 20) * (s.max_planner_iterations + 2)
          = (10 * s.max_refinements + 20) * (s.max_planner_iterations + 1)
            + (10 * s.max_refinements + 20) := by ring
      rcases architect_router_cases (architect_agent_node s (ArchOut.valid d)) with h1 | h1 <;>
        rw [h1] <;>
        simp only [stepMeasure, planWeight, pBudget, rBudget, rank, architect_agent_node,
          Nat.sub_zero] <;>
        rw [hb] <;> omega
    | invalid raw =>
      simp only [step]
      rw [harch, architect_invalid_routes_end s raw]
      simp only [stepMeasure, planWeight, pBudget, rBudget, rank, architect_agent_node]
      have hb : (10 * s.max_refinements + 20) * (s.max_planner_iterations + 2)
          = (10 * s.max_refinements + 20) * (s.max_planner_iterations + 1)
            + (10 * s.max_refinements + 20) := by ring
      have h1 : (10 * s.max_refinements + 20)
            * (s.max_planner_iterations + 1 - s.planner_iteration_count)
          ≤ (10 * s.max_refinements + 20) * (s.max_planner_iterations + 1) :=
        Nat.mul_le_mul_left _ (by omega)
      rw [hb]
      omega
  | planner =>
    cases harch : s.architectural_decision with
    | none =>
      simp only [step]
      rw [planner_noarch_routes_end s r.plan harch, planner_noarch s r.plan harch]
      simp only [stepMeasure, planWeight, pBudget, rBudget, rank]
      omega
    | some d =>
      have hc := planner_counters s r.plan d harch
      simp only [step]
      rcases planner_router_cases (planner_agent_node s r.plan) with ⟨h1, h2⟩ | h1 | h1 <;>
        rw [h1] <;>
        simp only [stepMeasure, planWeight, pBudget, rBudget, rank] <;>
        rw [hc.1, hc.2.1, hc.2.2.1, hc.2.2.2]
      · rw [hc.1, hc.2.2.1] at h2
        have hsub : s.max_planner_iterations + 1 - s.planner_iteration_count
            = (s.max_planner_iterations + 1 - (s.planner_iteration_count + 1)) + 1 := by omega
        have hb : (10 * s.max_refinements + 20)
              * (s.max_planner_iterations + 1 - s.planner_iteration_count)
            = (10 * s.max_refinements + 20)
              * (s.max_planner_iterations + 1 - (s.planner_iteration_count + 1))
              + (10 * s.max_refinements + 20) := by
          rw [hsub, Nat.mul_succ]
        rw [hb]
        split <;> omega
      · by_cases hpp : s.planner_iteration_count ≤ s.max_planner_iterations
        · have hsub : s.max_planner_iterations + 1 - s.planner_iteration_count
              = (s.max_planner_iterations + 1 - (s.planner_iteration_count + 1)) + 1 := by omega
          have hb : (10 * s.max_refinements + 20)
                * (s.max_planner_iterations + 1 - s.planner_iteration_count)
              = (10 * s.max_refinements + 20)
                * (s.max_planner_iterations + 1 - (s.planner_iteration_count + 1))
                + (10 * s.max_refinements + 20) := by
            rw [hsub, Nat.mul_succ]
          rw [hb]
          split <;> omega
        · have h0 : s.max_planner_iterations + 1 - s.planner_iteration_count = 0 := by omega
          have h0' : s.max_planner_iterations + 1 - (s.planner_iteration_count + 1) = 0 := by
            omega
          rw [h0, h0']
          split <;> omega
      · by_cases hpp : s.planner_iteration_count ≤ s.max_planner_iterations
        · have hsub : s.max_planner_iterations + 1 - s.planner_iteration_count
              = (s.max_planner_iterations + 1 - (s.planner_iteration_count + 1)) + 1 := by omega
          have hb : (10 * s.max_refinements + 20)
                * (s.max_planner_iterations + 1 - s.planner_iteration_count)
              = (10 * s.max_refinements + 20)
                * (s.max_planner_iterations + 1 - (s.planner_iteration_count + 1))
                + (10 * s.max_refinements + 20) := by
            rw [hsub, Nat.mul_succ]
          rw [hb]
          split <;> omega
        · have h0 : s.max_planner_iterations + 1 - s.planner_iteration_count = 0 := by omega
          have h0' : s.max_planner_iterations + 1 - (s.planner_iteration_count + 1) = 0 := by
            omega
          rw [h0, h0']
          split <;> omega
  | human =>
    have hc := human_counters s r.human
    simp only [step]
    simp only [stepMeasure, planWeight, pBudget, rBudget, rank]
    rw [hc.1, hc.2.1, hc.2.2.1, hc.2.2.2]
    omega
  | developer =>
    have hc := developer_counters s r.dev
    have hs : s.refinement_count ≤ s.max_refinements :=
      hInv (Or.inr (Or.inr (Or.inl rfl)))
    simp only [step]
    simp only [stepMeasure, planWeight, pBudget, rBudget, rank]
    rw [hc.1, hc.2.1, hc.2.2.1, hc.2.2.2]
    omega
  | qa =>
    have hc := qa_counters s r.qa
    simp only [step]
    rcases qa_router_cases (qa_agent_node s r.qa) with h1 | h1 | ⟨h1, -⟩ | ⟨h1, -⟩ <;>
      rw [h1] <;>
      simp only [stepMeasure, planWeight, pBudget, rBudget, rank] <;>
      rw [hc.1, hc.2.1, hc.2.2.1, hc.2.2.2] <;> omega
  | validation =>
    have hc := validation_counters s r.val
    simp only [step]
    rcases validation_router_cases (validation_agent_node s r.val) with h1 | h1 | ⟨h1, -⟩ <;>
      rw [h1] <;>
      simp only [stepMeasure, planWeight, pBudget, rBudget, rank] <;>
      rw [hc.1, hc.2.1, hc.2.2.1, hc.2.2.2] <;> omega
  | critique =>
    have hc := critique_counters s r.critiqueText
    simp only [step]
    simp only [stepMeasure, planWeight, pBudget, rBudget, rank]
    rw [hc.1, hc.2.1, hc.2.2.1, hc.2.2.2]
    omega
  | packaging =>
    have hc := packaging_counters s r.pkg
    simp only [step]
    rcases packaging_router_cases (artifact_packaging_node s r.pkg) with h1 | h1 <;>
      rw [h1] <;>
      simp only [stepMeasure, planWeight, pBudget, rBudget, rank] <;>
      rw [hc.1, hc.2.1, hc.2.2.1, hc.2.2.2] <;> omega
  | handoff =>
    have hc := handoff_counters s
    simp only [step]
    simp only [stepMeasure, planWeight, pBudget, rBudget, rank]
    rw [hc.1, hc.2.1, hc.2.2.1, hc.2.2.2]
    omega
  | terminal => exact absurd rfl hne

end Factory

namespace Factory

/-- Terminal is absorbing along a run. -/
theorem runCfg_terminal_forever (o : Nat → Resp) (s₀ : GraphState) (n : Nat)
    (h : (runCfg o s₀ n).node = Node.terminal) :
    ∀ m, (runCfg o s₀ (n + m)).node = Node.terminal := by
  intro m
  induction m with
  | zero => exact h
  | succ m ih =>
    show (step (runCfg o s₀ (n + m)) (o (n + m))).node = Node.terminal
    rcases hc : runCfg o s₀ (n + m) with ⟨nd, st⟩
    rw [hc] at ih
    have hnd : nd = Node.terminal := ih
    subst hnd
    rfl

/-- Any invariant preserved by `step` holds along the whole run. -/
theorem runCfg_invariant {P : Config → Prop}
    (hstep : ∀ c r, P c → P (step c r)) (o : Nat → Resp) (s₀ : GraphState)
    (h0 : P ⟨Node.architect, s₀⟩) : ∀ n, P (runCfg o s₀ n) := by
  intro n
  induction n with
  | zero => exact h0
  | succ n ih => exact hstep _ _ ih

/-- Fuel argument: once the measure is below the remaining fuel, the run
reaches Terminal within that fuel. -/
theorem measure_run_terminal (o : Nat → Resp) (s₀ : GraphState) :
    ∀ (k n : Nat), InvRef (runCfg o s₀ n) → stepMeasure (runCfg o s₀ n) < k →
    (runCfg o s₀ (n + k)).node = Node.terminal := by
  intro k
  induction k with
  | zero => exact fun n _ hm => absurd hm (Nat.not_lt_zero _)
  | succ k ih =>
    intro n hInv hm
    by_cases ht : (runCfg o s₀ n).node = Node.terminal
    · exact runCfg_terminal_forever o s₀ n ht (k + 1)
    · have hdec := stepMeasure_decreases (runCfg o s₀ n) (o n) hInv ht
      have hInv' : InvRef (runCfg o s₀ (n + 1)) := invRef_step _ _ hInv
      have hm' : stepMeasure (runCfg o s₀ (n + 1)) < k := by
        show stepMeasure (step (runCfg o s₀ n) (o n)) < k
        omega
      have hfin := ih (n + 1) hInv' hm'
      have heq : n + 1 + k = n + (k + 1) := by omega
      rw [heq] at hfin
      exact hfin

/-- The counter invariant holds vacuously at the entry configuration. -/
theorem invRef_init (s₀ : GraphState) : InvRef ⟨Node.architect, s₀⟩ := by
  intro hmem
  rcases hmem with h | h | h | h <;> simp at h

/-- Run-to-completion reaches Terminal within `stepBound` steps, for
every initial state and every behaviour of the collaborators. -/
theorem run_reaches_terminal (o : Nat → Resp) (s₀ : GraphState) :
    (runCfg o s₀ (stepBound s₀.max_planner_iterations s₀.max_refinements)).node
      = Node.terminal := by
  have h0 : InvRef (runCfg o s₀ 0) := invRef_init s₀
  have hm : stepMeasure (runCfg o s₀ 0)
      < stepBound s₀.max_planner_iterations s₀.max_refinements := by
    show stepMeasure ⟨Node.architect, s₀⟩ < _
    simp only [stepMeasure, planWeight, stepBound]
    omega
  have h := measure_run_terminal o s₀
    (stepBound s₀.max_planner_iterations s₀.max_refinements) 0 h0 hm
  simpa using h

/-- The planner node leaves the architectural decision untouched. -/
theorem planner_preserves_arch (s : GraphState) (r : PlanOut) :
    (planner_agent_node s r).architectural_decision = s.architectural_decision := by
  rcases harch : s.architectural_decision with _ | d
  · rw [planner_noarch s r harch, harch]
  · unfold planner_agent_node
    rw [harch]
    dsimp only
    cases r with
    | invalid raw => simp [plannerResult, harch]
    | parsed qs planned notes =>
      dsimp only
      split <;> simp [plannerResult, harch]

/-- The suspension node leaves the architectural decision untouched. -/
theorem human_preserves_arch (s : GraphState) (a : List String) :
    (human_interaction_node s a).architectural_decision = s.architectural_decision := by
  unfold human_interaction_node
  split <;> simp

/-- The decision invariant is preserved by every engine step. -/
theorem invArch_step (c : Config) (r : Resp) (h : InvArch c) : InvArch (step c r) := by
  obtain ⟨n, s⟩ := c
  cases n with
  | architect =>
    cases harch : r.arch with
    | valid d =>
      unfold InvArch
      intro _
      simp only [step]
      rw [harch]
      simp [architect_agent_node]
    | invalid raw =>
      unfold InvArch
      simp only [step]
      rw [harch, architect_invalid_routes_end s raw]
      intro hmem
      rcases hmem with h1 | h1 <;> simp at h1
  | planner =>
    have harch := planner_preserves_arch s r.plan
    unfold InvArch
    simp only [step]
    intro hmem
    rcases planner_router_cases (planner_agent_node s r.plan) with ⟨h1, -⟩ | h1 | h1
    · rw [harch]
      rcases hc : s.architectural_decision with _ | d
      · rw [planner_noarch_routes_end s r.plan hc] at h1
        exact absurd h1 (by decide)
      · simp
    · rw [h1] at hmem
      rcases hmem with h3 | h3 <;> simp at h3
    · rw [h1] at hmem
      rcases hmem with h3 | h3 <;> simp at h3
  | human =>
    have harch := human_preserves_arch s r.human
    unfold InvArch
    intro _
    simp only [step]
    rw [harch]
    exact h (Or.inr rfl)
  | developer =>
    unfold InvArch
    simp only [step]
    intro hmem
    rcases hmem with h1 | h1 <;> simp at h1
  | qa =>
    unfold InvArch
    simp only [step]
    intro hmem
    rcases qa_router_cases (qa_agent_node s r.qa) with h1 | h1 | ⟨h1, -⟩ | ⟨h1, -⟩ <;>
      rw [h1] at hmem <;> rcases hmem with h3 | h3 <;> simp at h3
  | validation =>
    unfold InvArch
    simp only [step]
    intro hmem
    rcases validation_router_cases (validation_agent_node s r.val) with h1 | h1 | ⟨h1, -⟩ <;>
      rw [h1] at hmem <;> rcases hmem with h3 | h3 <;> simp at h3
  | critique =>
    unfold InvArch
    simp only [step]
    intro hmem
    rcases hmem with h1 | h1 <;> simp at h1
  | packaging =>
    unfold InvArch
    simp only [step]
    intro hmem
    rcases packaging_router_cases (artifact_packaging_node s r.pkg) with h1 | h1 <;>
      rw [h1] at hmem <;> rcases hmem with h3 | h3 <;> simp at h3
  | handoff =>
    unfold InvArch
    simp only [step]
    intro hmem
    rcases hmem with h1 | h1 <;> simp at h1
  | terminal => exact h

/-- The decision invariant holds vacuously at the entry configuration. -/
theorem invArch_init (s₀ : GraphState) : InvArch ⟨Node.architect, s₀⟩ := by
  intro hmem
  rcases hmem with h | h <;> simp at h

/-- In every run, each developer invocation increments the refinement
counter by exactly 1. -/
theorem run_developer_increments (o : Nat → Resp) (s₀ : GraphState) (k : Nat)
    (h : (runCfg o s₀ k).node = Node.developer) :
    (runCfg o s₀ (k + 1)).state.refinement_count
      = (runCfg o s₀ k).state.refinement_count + 1 := by
  show (step (runCfg o s₀ k) (o k)).state.refinement_count = _
  rcases hc : runCfg o s₀ k with ⟨n, s⟩
  rw [hc] at h
  have hn : n = Node.developer := h
  subst hn
  simp only [step]
  exact (developer_counters s (o k).dev).1

/-- In every run, each planner invocation increments the clarification
counter by exactly 1 (the planner always sees a valid decision). -/
theorem run_planner_increments (o : Nat → Resp) (s₀ : GraphState) (k : Nat)
    (h : (runCfg o s₀ k).node = Node.planner) :
    (runCfg o s₀ (k + 1)).state.planner_iteration_count
      = (runCfg o s₀ k).state.planner_iteration_count + 1 := by
  have hA : InvArch (runCfg o s₀ k) :=
    runCfg_invariant invArch_step o s₀ (invArch_init s₀) k
  show (step (runCfg o s₀ k) (o k)).state.planner_iteration_count = _
  rcases hc : runCfg o s₀ k with ⟨n, s⟩
  rw [hc] at h hA
  have hn : n = Node.planner := h
  subst hn
  have harch : s.architectural_decision.isSome = true := hA (Or.inl rfl)
  obtain ⟨d, hd⟩ := Option.isSome_iff_exists.mp harch
  simp only [step]
  exact (planner_counters s (o k).plan d hd).1

end Factory

namespace Factory

/-- The QA router advances to validation only on a successful test status. -/
theorem qa_validation_guard (s : GraphState)
    (h : decide_after_qa s = Node.validation) :
    s.test_status = some TestStatus.success := by
  unfold decide_after_qa at h
  split at h
  · exact absurd h (by decide)
  split at h
  · rename_i hcond
    exact hcond
  split at h
  · split at h
    · split at h <;> exact absurd h (by decide)
    · split at h <;> exact absurd h (by decide)
  · split at h <;> exact absurd h (by decide)

/-- The validation router advances to packaging only on a passed review. -/
theorem validation_packaging_guard (s : GraphState)
    (h : decide_after_validation s = Node.packaging) :
    s.validation_status = some ValStatus.pass := by
  unfold decide_after_validation at h
  split at h
  · rename_i hcond
    exact hcond
  split at h
  · exact absurd h (by decide)
  split at h <;> exact absurd h (by decide)

/-- The packaging router advances to handoff only with packaged artifacts. -/
theorem packaging_handoff_guard (s : GraphState)
    (h : decide_after_packaging s = Node.handoff) :
    s.packaged_artifacts_info.isSome = true := by
  unfold decide_after_packaging at h
  split at h
  · exact absurd h (by decide)
  split at h
  · rename_i hcond
    exact hcond
  · exact absurd h (by decide)

/-- The validation node leaves the test status untouched. -/
theorem validation_preserves_test (s : GraphState) (r : ValOut) :
    (validation_agent_node s r).test_status = s.test_status := by
  unfold validation_agent_node
  split <;> simp

/-- The packaging node leaves the test and validation statuses untouched. -/
theorem packaging_preserves_status (s : GraphState) (r : PkgOut) :
    (artifact_packaging_node s r).test_status = s.test_status
    ∧ (artifact_packaging_node s r).validation_status = s.validation_status := by
  unfold artifact_packaging_node
  split
  · simp
  split <;> simp

/-- The handoff node only writes the summary and the error slot. -/
theorem handoff_preserves_status (s : GraphState) :
    (handoff_node s).test_status = s.test_status
    ∧ (handoff_node s).validation_status = s.validation_status
    ∧ (handoff_node s).packaged_artifacts_info = s.packaged_artifacts_info := by
  unfold handoff_node
  split <;> simp

/-- The success-path invariant is preserved by every engine step. -/
theorem invSuccess_step (c : Config) (r : Resp) (h : InvSuccess c) :
    InvSuccess (step c r) := by
  obtain ⟨n, s⟩ := c
  cases n with
  | architect =>
    simp only [step]
    rcases architect_router_cases (architect_agent_node s r.arch) with h1 | h1 <;>
      rw [h1] <;>
      exact ⟨fun h2 => by simp at h2, fun h2 => by simp at h2, fun h2 => by simp at h2⟩
  | planner =>
    simp only [step]
    rcases planner_router_cases (planner_agent_node s r.plan) with ⟨h1, -⟩ | h1 | h1 <;>
      rw [h1] <;>
      exact ⟨fun h2 => by simp at h2, fun h2 => by simp at h2, fun h2 => by simp at h2⟩
  | human =>
    simp only [step]
    exact ⟨fun h2 => by simp at h2, fun h2 => by simp at h2, fun h2 => by simp at h2⟩
  | developer =>
    simp only [step]
    exact ⟨fun h2 => by simp at h2, fun h2 => by simp at h2, fun h2 => by simp at h2⟩
  | qa =>
    simp only [step]
    rcases qa_router_cases (qa_agent_node s r.qa) with h1 | h1 | ⟨h1, -⟩ | ⟨h1, -⟩ <;> rw [h1]
    · exact ⟨fun _ => qa_validation_guard _ h1, fun h2 => by simp at h2,
        fun h2 => by simp at h2⟩
    · exact ⟨fun h2 => by simp at h2, fun h2 => by simp at h2, fun h2 => by simp at h2⟩
    · exact ⟨fun h2 => by simp at h2, fun h2 => by simp at h2, fun h2 => by simp at h2⟩
    · exact ⟨fun h2 => by simp at h2, fun h2 => by simp at h2, fun h2 => by simp at h2⟩
  | validation =>
    have htest : s.test_status = some TestStatus.success := h.1 rfl
    simp only [step]
    rcases validation_router_cases (validation_agent_node s r.val) with h1 | h1 | ⟨h1, -⟩ <;>
      rw [h1]
    · refine ⟨fun h2 => by simp at h2, fun _ => ?_, fun h2 => by simp at h2⟩
      exact ⟨(validation_preserves_test s r.val).trans htest,
        validation_packaging_guard _ h1⟩
    · exact ⟨fun h2 => by simp at h2, fun h2 => by simp at h2, fun h2 => by simp at h2⟩
    · exact ⟨fun h2 => by simp at h2, fun h2 => by simp at h2, fun h2 => by simp at h2⟩
  | critique =>
    simp only [step]
    exact ⟨fun h2 => by simp at h2, fun h2 => by simp at h2, fun h2 => by simp at h2⟩
  | packaging =>
    have hpk := h.2.1 rfl
    simp only [step]
    rcases packaging_router_cases (artifact_packaging_node s r.pkg) with h1 | h1 <;> rw [h1]
    · refine ⟨fun h2 => by simp at h2, fun h2 => by simp at h2, fun _ => ?_⟩
      refine ⟨(packaging_preserves_status s r.pkg).1.trans hpk.1,
        (packaging_preserves_status s r.pkg).2.trans hpk.2,
        packaging_handoff_guard _ h1⟩
    · exact ⟨fun h2 => by simp at h2, fun h2 => by simp at h2, fun h2 => by simp at h2⟩
  | handoff =>
    simp only [step]
    exact ⟨fun h2 => by simp at h2, fun h2 => by simp at h2, fun h2 => by simp at h2⟩
  | terminal => exact h

/-- The success-path invariant holds vacuously at the entry configuration. -/
theorem invSuccess_init (s₀ : GraphState) : InvSuccess ⟨Node.architect, s₀⟩ :=
  ⟨fun h => by simp at h, fun h => by simp at h, fun h => by simp at h⟩

end Factory

namespace Factory

/-- A string with a nonempty left part is truthy. -/
theorem strTruthy_append_left (a b : String) (h : a ≠ "") :
    strTruthy (some (a ++ b)) = true := by
  simp only [strTruthy]
  cases hem : (a ++ b).isEmpty with
  | false => simp
  | true =>
    exfalso
    rw [String.isEmpty_iff] at hem
    apply h
    have hdata : a.data ++ b.data = [] := by
      calc a.data ++ b.data = (a ++ b).data := (String.data_append a b).symm
        _ = ("" : String).data := by rw [hem]
        _ = [] := rfl
    apply String.ext
    exact (List.append_eq_nil.mp hdata).1

/-- A string with a nonempty right part is truthy. -/
theorem strTruthy_append_right (a b : String) (h : b ≠ "") :
    strTruthy (some (a ++ b)) = true := by
  simp only [strTruthy]
  cases hem : (a ++ b).isEmpty with
  | false => simp
  | true =>
    exfalso
    rw [String.isEmpty_iff] at hem
    apply h
    have hdata : a.data ++ b.data = [] := by
      calc a.data ++ b.data = (a ++ b).data := (String.data_append a b).symm
        _ = ("" : String).data := by rw [hem]
        _ = [] := rfl
    apply String.ext
    exact (List.append_eq_nil.mp hdata).2

/-- When the architect router ends the run, either an architect error is
recorded or the decision has no usable language. -/
theorem architect_end_cases (s : GraphState)
    (h : decide_after_architect s = Node.terminal) :
    errContains s.current_error "Architect Error" = true ∨ archLangTruthy s = false := by
  unfold decide_after_architect at h
  split at h
  · rename_i hcond
    exact Or.inl hcond
  split at h
  · exact absurd h (by decide)
  · rename_i h1 h2
    exact Or.inr (by simpa [archLangTruthy] using h2)

/-- When the planner router ends the run, either a planner error is
recorded, or questions are outstanding at the outer cap, or there is
neither a question nor a plan. -/
theorem planner_end_cases (s : GraphState)
    (h : decide_after_planner s = Node.terminal) :
    errContains s.current_error "Planner Error" = true
    ∨ (listTruthy s.clarification_questions_for_user = true
        ∧ s.max_planner_iterations ≤ s.planner_iteration_count)
    ∨ (listTruthy s.clarification_questions_for_user = false
        ∧ strTruthy s.planned_task_description = false) := by
  unfold decide_after_planner at h
  split at h
  · rename_i hcond
    exact Or.inl hcond
  split at h
  · exact absurd h (by decide)
  split at h
  · rename_i hcond
    exact Or.inr (Or.inl hcond)
  split at h
  · exact absurd h (by decide)
  · rename_i h1 h2 h3 h4
    have hq : listTruthy s.clarification_questions_for_user = false := by
      cases hqq : listTruthy s.clarification_questions_for_user with
      | false => rfl
      | true =>
        rcases Nat.lt_or_ge s.planner_iteration_count s.max_planner_iterations with hlt | hge
        · exact absurd ⟨hqq, hlt⟩ h2
        · exact absurd ⟨hqq, hge⟩ h3
    exact Or.inr (Or.inr ⟨hq, by simpa using h4⟩)

/-- When the QA router ends the run, either an upstream error is
recorded, or the refinement cap is reached with a non-success status. -/
theorem qa_end_cases (s : GraphState) (h : decide_after_qa s = Node.terminal) :
    (errContains s.current_error "Architect Error" = true
      ∨ errContains s.current_error "Planner Error" = true)
    ∨ (s.max_refinements ≤ s.refinement_count
        ∧ s.test_status ≠ some TestStatus.success) := by
  unfold decide_after_qa at h
  split at h
  · rename_i hcond
    exact Or.inl hcond
  split at h
  · exact absurd h (by decide)
  rename_i hnsucc
  split at h
  · rename_i htool
    split at h
    · split at h
      · exact absurd h (by decide)
      · rename_i hnl
        exact Or.inr ⟨by omega, by simp [htool]⟩
    · split at h
      · exact absurd h (by decide)
      · rename_i hnl
        exact Or.inr ⟨by omega, by simp [htool]⟩
  · split at h
    · exact absurd h (by decide)
    · rename_i hnl
      exact Or.inr ⟨by omega, hnsucc⟩

/-- When the validation router ends the run, the status is `error`, or it
is neither `pass` nor `error` with the refinement cap reached. -/
theorem validation_end_cases (s : GraphState)
    (h : decide_after_validation s = Node.terminal) :
    s.validation_status = some ValStatus.error
    ∨ (s.validation_status ≠ some ValStatus.pass
        ∧ s.validation_status ≠ some ValStatus.error
        ∧ s.max_refinements ≤ s.refinement_count) := by
  unfold decide_after_validation at h
  split at h
  · exact absurd h (by decide)
  split at h
  · rename_i hcond
    exact Or.inl hcond
  split at h
  · exact absurd h (by decide)
  · rename_i h1 h2 hnl
    exact Or.inr ⟨h1, h2, by omega⟩

/-- The validation node always writes a concrete status value. -/
theorem validation_sets_status (s : GraphState) (r : ValOut) :
    ∃ st, (validation_agent_node s r).validation_status = some st := by
  unfold validation_agent_node
  split
  · exact ⟨ValStatus.error, rfl⟩
  · exact ⟨_, rfl⟩

/-- A planner run that produces neither questions nor a truthy plan
records a planner error. -/
theorem planner_no_plan_error (s : GraphState) (r : PlanOut)
    (hq : listTruthy (planner_agent_node s r).clarification_questions_for_user = false)
    (hp : strTruthy (planner_agent_node s r).planned_task_description = false) :
    strTruthy (planner_agent_node s r).current_error = true := by
  rcases harch : s.architectural_decision with _ | d
  · rw [planner_noarch s r harch]
    show strTruthy
      (some "Planner Error: Missing or invalid architectural decision from Architect.") = true
    decide
  · unfold planner_agent_node
    rw [harch]
    dsimp only
    cases r with
    | invalid raw =>
      simp only [plannerResult]
      exact strTruthy_append_left _ raw (by decide)
    | parsed qs planned notes =>
      dsimp only
      by_cases hqs : qs.isEmpty = true
      · have hplanned : strTruthy planned = false := by
          unfold planner_agent_node at hp
          rw [harch] at hp
          dsimp only at hp
          rw [if_pos hqs] at hp
          simpa [plannerResult] using hp
        rw [if_pos hqs]
        simp only [plannerResult]
        rw [hplanned]
        decide
      · exfalso
        unfold planner_agent_node at hq
        rw [harch] at hq
        dsimp only at hq
        rw [if_neg hqs] at hq
        simp only [plannerResult] at hq
        rw [if_neg hqs] at hq
        simp only [listTruthy] at hq
        exact hqs (by simpa using hq)

/-- The packaging node leaves a truthy fatal error whenever its router
ends the run. -/
theorem packaging_end_error (s : GraphState) (r : PkgOut)
    (h : decide_after_packaging (artifact_packaging_node s r) = Node.terminal) :
    strTruthy (artifact_packaging_node s r).current_error = true := by
  by_cases hcode : (!strTruthy s.generated_code) = true
  · unfold artifact_packaging_node
    rw [if_pos hcode]
    show strTruthy (some "Packaging: No code.") = true
    decide
  · unfold artifact_packaging_node at h ⊢
    rw [if_neg hcode] at h ⊢
    cases r with
    | ok d c rm =>
      simp [decide_after_packaging, errContains] at h
    | exc m =>
      exact strTruthy_append_left _ m (by decide)

/-- With the success-path facts in hand, the handoff node produces a
full success indication. -/
theorem handoff_success (s : GraphState)
    (htest : s.test_status = some TestStatus.success)
    (hval : s.validation_status = some ValStatus.pass)
    (hpkg : s.packaged_artifacts_info.isSome = true) :
    successIndication (handoff_node s) := by
  obtain ⟨p, hp⟩ := Option.isSome_iff_exists.mp hpkg
  unfold handoff_node
  rw [hp]
  exact ⟨htest, hval, by simp, strTruthy_append_right _ _ (by decide)⟩

end Factory

namespace Factory

/-- Every state in which a run sits at Terminal explains its outcome. -/
theorem run_terminal_explained (o : Nat → Resp) (s₀ : GraphState) :
    ∀ k, (runCfg o s₀ k).node = Node.terminal →
    explainedTerminal (runCfg o s₀ k).state := by
  intro k
  induction k with
  | zero =>
    intro h
    simp [runCfg] at h
  | succ k ih =>
    intro h
    have hS : InvSuccess (runCfg o s₀ k) :=
      runCfg_invariant invSuccess_step o s₀ (invSuccess_init s₀) k
    rcases hc : runCfg o s₀ k with ⟨n, s⟩
    rw [hc] at hS
    have hstep : runCfg o s₀ (k + 1) = step ⟨n, s⟩ (o k) := by
      show step (runCfg o s₀ k) (o k) = _
      rw [hc]
    rw [hstep] at h ⊢
    cases n with
    | architect =>
      cases harch : (o k).arch with
      | valid d =>
        simp only [step] at h ⊢
        rw [harch] at h ⊢
        rcases architect_end_cases _ h with h1 | h1
        · exfalso
          simp [architect_agent_node, errContains] at h1
        · exact Or.inr (Or.inr (Or.inr (Or.inr (Or.inr h1))))
      | invalid raw =>
        simp only [step] at h ⊢
        rw [harch] at h ⊢
        refine Or.inr (Or.inl ?_)
        exact strTruthy_append_left _ raw (by decide)
    | planner =>
      simp only [step] at h ⊢
      rcases planner_end_cases _ h with h1 | ⟨h1, h2⟩ | ⟨h1, h2⟩
      · exact Or.inr (Or.inl (errContains_truthy h1 (by decide)))
      · exact Or.inr (Or.inr (Or.inr (Or.inr (Or.inl ⟨h1, h2⟩))))
      · exact Or.inr (Or.inl (planner_no_plan_error s (o k).plan h1 h2))
    | human =>
      simp only [step] at h
      exact absurd h (by decide)
    | developer =>
      simp only [step] at h
      exact absurd h (by decide)
    | qa =>
      simp only [step] at h ⊢
      rcases qa_end_cases _ h with h1 | ⟨h1, h2⟩
      · rcases h1 with h1 | h1
        · exact Or.inr (Or.inl (errContains_truthy h1 (by decide)))
        · exact Or.inr (Or.inl (errContains_truthy h1 (by decide)))
      · exact Or.inr (Or.inr (Or.inr (Or.inl ⟨h1, Or.inl h2⟩)))
    | validation =>
      simp only [step] at h ⊢
      rcases validation_end_cases _ h with h1 | ⟨h1, h2, h3⟩
      · exact Or.inr (Or.inr (Or.inl h1))
      · obtain ⟨st, hst⟩ := validation_sets_status s (o k).val
        have hfail : st = ValStatus.fail := by
          cases st with
          | pass => exact absurd hst h1
          | fail => rfl
          | error => exact absurd hst h2
        exact Or.inr (Or.inr (Or.inr (Or.inl ⟨h3, Or.inr (by rw [hst, hfail])⟩)))
    | critique =>
      simp only [step] at h
      exact absurd h (by decide)
    | packaging =>
      simp only [step] at h ⊢
      exact Or.inr (Or.inl (packaging_end_error s (o k).pkg h))
    | handoff =>
      simp only [step] at h ⊢
      exact Or.inl (handoff_success s (hS.2.2 rfl).1 (hS.2.2 rfl).2.1 (hS.2.2 rfl).2.2)
    | terminal =>
      have hterm : (runCfg o s₀ k).node = Node.terminal := by
        rw [hc]
      have hexp := ih hterm
      rw [hc] at hexp
      exact hexp

end Factory

namespace Factory

/-- The refinement-zero invariant is preserved by every engine step. -/
theorem invRefZero_step (c : Config) (r : Resp) (h : InvRefZero c) :
    InvRefZero (step c r) := by
  obtain ⟨n, s⟩ := c
  cases n with
  | architect =>
    cases harch : r.arch with
    | valid d =>
      unfold InvRefZero
      intro _
      simp only [step]
      rw [harch]
      simp [architect_agent_node]
    | invalid raw =>
      unfold InvRefZero
      simp only [step]
      rw [harch, architect_invalid_routes_end s raw]
      intro hmem
      rcases hmem with h1 | h1 <;> simp at h1
  | planner =>
    have h0 : s.refinement_count = 0 := h (Or.inl rfl)
    unfold InvRefZero
    intro _
    simp only [step]
    rcases harch : s.architectural_decision with _ | d
    · rw [planner_noarch s r.plan harch]
      exact h0
    · rw [(planner_counters s r.plan d harch).2.2.2]
      split
      · rfl
      · exact h0
  | human =>
    have h0 : s.refinement_count = 0 := h (Or.inr rfl)
    unfold InvRefZero
    intro _
    simp only [step]
    rw [(human_counters s r.human).1]
    exact h0
  | developer =>
    unfold InvRefZero
    simp only [step]
    intro hmem
    rcases hmem with h1 | h1 <;> simp at h1
  | qa =>
    unfold InvRefZero
    simp only [step]
    intro hmem
    rcases qa_router_cases (qa_agent_node s r.qa) with h1 | h1 | ⟨h1, -⟩ | ⟨h1, -⟩ <;>
      rw [h1] at hmem <;> rcases hmem with h3 | h3 <;> simp at h3
  | validation =>
    unfold InvRefZero
    simp only [step]
    intro hmem
    rcases validation_router_cases (validation_agent_node s r.val) with h1 | h1 | ⟨h1, -⟩ <;>
      rw [h1] at hmem <;> rcases hmem with h3 | h3 <;> simp at h3
  | critique =>
    unfold InvRefZero
    simp only [step]
    intro hmem
    rcases hmem with h1 | h1 <;> simp at h1
  | packaging =>
    unfold InvRefZero
    simp only [step]
    intro hmem
    rcases packaging_router_cases (artifact_packaging_node s r.pkg) with h1 | h1 <;>
      rw [h1] at hmem <;> rcases hmem with h3 | h3 <;> simp at h3
  | handoff =>
    unfold InvRefZero
    simp only [step]
    intro hmem
    rcases hmem with h1 | h1 <;> simp at h1
  | terminal => exact h

/-- The refinement-zero invariant holds vacuously at the entry. -/
theorem invRefZero_init (s₀ : GraphState) : InvRefZero ⟨Node.architect, s₀⟩ := by
  intro hmem
  rcases hmem with h | h <;> simp at h

/-- The feedback-log update of the planner: cleared exactly on the first
iteration, preserved otherwise. -/
theorem planner_feedback (s : GraphState) (r : PlanOut) (d : ArchDecision)
    (h : s.architectural_decision = some d) :
    (planner_agent_node s r).feedback_history
      = (if s.planner_iteration_count = 0 then [] else s.feedback_history) := by
  unfold planner_agent_node
  rw [h]
  dsimp only
  cases r with
  | invalid raw => simp [plannerResult]
  | parsed qs planned notes =>
    dsimp only
    split <;> simp [plannerResult]

/-- The suspension node leaves the feedback log untouched. -/
theorem human_preserves_fb (s : GraphState) (a : List String) :
    (human_interaction_node s a).feedback_history = s.feedback_history := by
  unfold human_interaction_node
  split <;> simp

/-- The QA node leaves the feedback log untouched. -/
theorem qa_preserves_fb (s : GraphState) (r : QaOut) :
    (qa_agent_node s r).feedback_history = s.feedback_history := by
  unfold qa_agent_node
  split <;> simp

/-- The validation node leaves the feedback log untouched. -/
theorem validation_preserves_fb (s : GraphState) (r : ValOut) :
    (validation_agent_node s r).feedback_history = s.feedback_history := by
  unfold validation_agent_node
  split <;> simp

/-- The packaging node leaves the feedback log untouched. -/
theorem packaging_preserves_fb (s : GraphState) (r : PkgOut) :
    (artifact_packaging_node s r).feedback_history = s.feedback_history := by
  unfold artifact_packaging_node
  split
  · simp
  split <;> simp

/-- The handoff node leaves the feedback log untouched. -/
theorem handoff_preserves_fb (s : GraphState) :
    (handoff_node s).feedback_history = s.feedback_history := by
  unfold handoff_node
  split <;> simp

/-- The developer node only ever appends to the feedback log. -/
theorem developer_fb_extends (s : GraphState) (r : DevOut) :
    s.feedback_history <+: (developer_agent_node s r).feedback_history := by
  unfold developer_agent_node
  split
  · exact List.prefix_refl _
  split
  · exact List.prefix_refl _
  · exact List.prefix_append _ _

/-- The critique node only ever appends to the feedback log. -/
theorem critique_fb_extends (s : GraphState) (t : String) :
    s.feedback_history <+: (critique_agent_node s t).feedback_history := by
  unfold critique_agent_node
  simp only []
  split
  · exact List.prefix_refl _
  · show s.feedback_history <+: _
    rw [List.append_assoc, List.append_assoc]
    exact List.prefix_append _ _

/-- The feedback invariant is preserved by every engine step. -/
theorem invFeedback_step (c : Config) (r : Resp) (h : InvFeedback c) :
    InvFeedback (step c r) := by
  obtain ⟨n, s⟩ := c
  cases n with
  | architect =>
    cases harch : r.arch with
    | valid d =>
      simp only [step]
      rw [harch]
      rcases architect_router_cases (architect_agent_node s (ArchOut.valid d)) with h1 | h1 <;>
        rw [h1] <;>
        exact ⟨fun h2 => by simp at h2, fun _ _ => by simp [architect_agent_node],
          fun h2 => by simp at h2⟩
    | invalid raw =>
      simp only [step]
      rw [harch, architect_invalid_routes_end s raw]
      exact ⟨fun h2 => by simp at h2, fun h2 _ => by simp at h2, fun h2 => by simp at h2⟩
  | planner =>
    simp only [step]
    rcases harch : s.architectural_decision with _ | d
    · rw [planner_noarch_routes_end s r.plan harch]
      exact ⟨fun h2 => by simp at h2, fun h2 _ => by simp at h2, fun h2 => by simp at h2⟩
    · have hc := planner_counters s r.plan d harch
      rcases planner_router_cases (planner_agent_node s r.plan) with ⟨h1, -⟩ | h1 | h1 <;>
        rw [h1]
      · refine ⟨fun h2 => by simp at h2, fun h2 _ => by simp at h2, fun _ => ?_⟩
        rw [hc.1]
        omega
      · exact ⟨fun h2 => by simp at h2, fun h2 _ => by simp at h2, fun h2 => by simp at h2⟩
      · exact ⟨fun h2 => by simp at h2, fun h2 _ => by simp at h2, fun h2 => by simp at h2⟩
  | human =>
    have hpic : 1 ≤ s.planner_iteration_count := h.2.2 rfl
    simp only [step]
    refine ⟨fun h2 => by simp at h2, fun _ hp => ?_, fun h2 => by simp at h2⟩
    rw [(human_counters s r.human).2.2.1] at hp
    omega
  | developer =>
    simp only [step]
    exact ⟨fun h2 => by simp at h2, fun h2 _ => by simp at h2, fun h2 => by simp at h2⟩
  | qa =>
    simp only [step]
    rcases qa_router_cases (qa_agent_node s r.qa) with h1 | h1 | ⟨h1, -⟩ | ⟨h1, -⟩ <;>
      rw [h1] <;>
      exact ⟨fun h2 => by simp at h2, fun h2 _ => by simp at h2, fun h2 => by simp at h2⟩
  | validation =>
    simp only [step]
    rcases validation_router_cases (validation_agent_node s r.val) with h1 | h1 | ⟨h1, -⟩ <;>
      rw [h1] <;>
      exact ⟨fun h2 => by simp at h2, fun h2 _ => by simp at h2, fun h2 => by simp at h2⟩
  | critique =>
    simp only [step]
    exact ⟨fun h2 => by simp at h2, fun h2 _ => by simp at h2, fun h2 => by simp at h2⟩
  | packaging =>
    simp only [step]
    rcases packaging_router_cases (artifact_packaging_node s r.pkg) with h1 | h1 <;>
      rw [h1] <;>
      exact ⟨fun h2 => by simp at h2, fun h2 _ => by simp at h2, fun h2 => by simp at h2⟩
  | handoff =>
    simp only [step]
    exact ⟨fun h2 => by simp at h2, fun h2 _ => by simp at h2, fun h2 => by simp at h2⟩
  | terminal => exact h

/-- The feedback invariant at the entry, given an initialized record. -/
theorem invFeedback_init (s₀ : GraphState) (hfb : s₀.feedback_history = []) :
    InvFeedback ⟨Node.architect, s₀⟩ :=
  ⟨fun _ => hfb, fun h2 _ => by simp at h2, fun h2 => by simp at h2⟩

/-- Along a run from an initialized record, each engine step extends the
feedback log: the old log is a prefix of the new one. -/
theorem run_feedback_extends (o : Nat → Resp) (s₀ : GraphState)
    (hfb : s₀.feedback_history = []) (k : Nat) :
    (runCfg o s₀ k).state.feedback_history
      <+: (runCfg o s₀ (k + 1)).state.feedback_history := by
  have hF : InvFeedback (runCfg o s₀ k) :=
    runCfg_invariant invFeedback_step o s₀ (invFeedback_init s₀ hfb) k
  rcases hc : runCfg o s₀ k with ⟨n, s⟩
  rw [hc] at hF
  have hstep : runCfg o s₀ (k + 1) = step ⟨n, s⟩ (o k) := by
    show step (runCfg o s₀ k) (o k) = _
    rw [hc]
  rw [hstep]
  cases n with
  | architect =>
    cases harch : (o k).arch with
    | valid d =>
      simp only [step]
      rw [harch]
      have h0 : s.feedback_history = [] := hF.1 rfl
      rw [h0]
      exact List.nil_prefix
    | invalid raw =>
      simp only [step]
      rw [harch]
      exact List.prefix_refl _
  | planner =>
    simp only [step]
    rcases harch : s.architectural_decision with _ | d
    · rw [planner_noarch s (o k).plan harch]
    · show s.feedback_history <+: (planner_agent_node s (o k).plan).feedback_history
      rw [planner_feedback s (o k).plan d harch]
      split
      · rename_i hpic
        rw [hF.2.1 rfl hpic]
      · exact List.prefix_refl _
  | human =>
    simp only [step]
    rw [show (human_interaction_node s (o k).human).feedback_history = s.feedback_history
      from human_preserves_fb s (o k).human]
  | developer =>
    simp only [step]
    exact developer_fb_extends s (o k).dev
  | qa =>
    simp only [step]
    rw [show (qa_agent_node s (o k).qa).feedback_history = s.feedback_history
      from qa_preserves_fb s (o k).qa]
  | validation =>
    simp only [step]
    rw [show (validation_agent_node s (o k).val).feedback_history = s.feedback_history
      from validation_preserves_fb s (o k).val]
  | critique =>
    simp only [step]
    exact critique_fb_extends s (o k).critiqueText
  | packaging =>
    simp only [step]
    rw [show (artifact_packaging_node s (o k).pkg).feedback_history = s.feedback_history
      from packaging_preserves_fb s (o k).pkg]
  | handoff =>
    simp only [step]
    rw [show (handoff_node s).feedback_history = s.feedback_history
      from handoff_preserves_fb s]
  | terminal =>
    exact List.prefix_refl _

/-- When code is present, the critique node strictly lengthens the
feedback log (it appends at least the critique entry). -/
theorem critique_strictly_appends (s : GraphState) (t : String)
    (h : strTruthy s.generated_code = true) :
    s.feedback_history.length < (critique_agent_node s t).feedback_history.length := by
  unfold critique_agent_node
  simp only []
  rw [if_neg (by simp [h])]
  simp only [List.length_append, List.length_singleton]
  omega

end Factory

namespace Factory

/-- C1 (amended): whenever the refinement counter has reached its cap and
the test status is not success, `decide_after_qa` returns Terminal
regardless of the status value.  The router is a pure function returning
only the next-stage label, so it does not (and cannot) set the
fatal-error slot; no "refinement cap exceeded" error is recorded
anywhere. -/
theorem c1_cap_routes_terminal (s : GraphState)
    (hcap : s.max_refinements ≤ s.refinement_count)
    (hfail : s.test_status ≠ some TestStatus.success) :
    decide_after_qa s = Node.terminal := by
  rcases qa_router_cases s with h1 | h1 | ⟨h1, h2⟩ | ⟨h1, h2⟩
  · exact absurd (qa_validation_guard s h1) hfail
  · exact h1
  · exact absurd h2 (by omega)
  · exact absurd h2 (by omega)

/-- C1 witness: the cap-and-failure theorem at a concrete state. -/
theorem c1_witness : decide_after_qa s1cap = Node.terminal :=
  c1_cap_routes_terminal s1cap (by decide) (by decide)

/-- C1 counterexample: at the concrete capped, failing state the router
returns Terminal but the fatal-error slot is `None` and mentions no
"refinement cap exceeded" kind — the second conjunct of the claim fails (the
router returns only a label and never writes the state). -/
theorem c1_counterexample :
    decide_after_qa s1cap = Node.terminal
    ∧ s1cap.current_error = Option.none
    ∧ errContains s1cap.current_error "refinement cap exceeded" = false := by
  refine ⟨by decide, by decide, by decide⟩

/-- C2: for every initial state and every collaborator behaviour,
run-to-completion reaches Terminal within `stepBound maxP maxR` engine
steps; the developer increments `refinement_count` by exactly 1 on every
run invocation, the planner increments `planner_iteration_count` by
exactly 1 on every run invocation, and each router re-enters a loop
(critique, developer retry, suspension) only strictly below the
corresponding cap, returning Terminal once the cap is reached. -/
theorem c2_bounded_termination :
    (∀ (s₀ : GraphState) (o : Nat → Resp),
        (runCfg o s₀ (stepBound s₀.max_planner_iterations s₀.max_refinements)).node
          = Node.terminal)
    ∧ (∀ (s₀ : GraphState) (o : Nat → Resp) (k : Nat),
        (runCfg o s₀ k).node = Node.developer →
        (runCfg o s₀ (k + 1)).state.refinement_count
          = (runCfg o s₀ k).state.refinement_count + 1)
    ∧ (∀ (s₀ : GraphState) (o : Nat → Resp) (k : Nat),
        (runCfg o s₀ k).node = Node.planner →
        (runCfg o s₀ (k + 1)).state.planner_iteration_count
          = (runCfg o s₀ k).state.planner_iteration_count + 1)
    ∧ (∀ s : GraphState, decide_after_qa s = Node.critique →
        s.refinement_count < s.max_refinements)
    ∧ (∀ s : GraphState, decide_after_validation s = Node.critique →
        s.refinement_count < s.max_refinements)
    ∧ (∀ s : GraphState, decide_after_planner s = Node.human →
        s.planner_iteration_count < s.max_planner_iterations) :=
  ⟨fun s₀ o => run_reaches_terminal o s₀,
   fun s₀ o k h => run_developer_increments o s₀ k h,
   fun s₀ o k h => run_planner_increments o s₀ k h,
   qa_critique_guard, validation_critique_guard, planner_human_guard⟩

/-- C2 witness: bounded termination and both increments on a concrete run. -/
theorem c2_witness :
    (runCfg oHappy initState (stepBound 2 3)).node = Node.terminal
    ∧ (runCfg oHappy initState 3).state.refinement_count
        = (runCfg oHappy initState 2).state.refinement_count + 1
    ∧ (runCfg oHappy initState 2).state.planner_iteration_count
        = (runCfg oHappy initState 1).state.planner_iteration_count + 1 :=
  ⟨c2_bounded_termination.1 initState oHappy,
   c2_bounded_termination.2.1 initState oHappy 2 (by decide),
   c2_bounded_termination.2.2.1 initState oHappy 1 (by decide)⟩

/-- C3 (amended): in every run, every planner execution produces a state
with `refinement_count = 0` — because the counter is always 0 when the
planner runs; the node itself resets it only on the first iteration and
otherwise preserves the input value. -/
theorem c3_planner_run_resets_refinement (o : Nat → Resp) (s₀ : GraphState) (k : Nat)
    (h : (runCfg o s₀ k).node = Node.planner) :
    (runCfg o s₀ (k + 1)).state.refinement_count = 0 := by
  have hZ : InvRefZero (runCfg o s₀ k) :=
    runCfg_invariant invRefZero_step o s₀ (invRefZero_init s₀) k
  show (step (runCfg o s₀ k) (o k)).state.refinement_count = 0
  rcases hc : runCfg o s₀ k with ⟨n, s⟩
  rw [hc] at h hZ
  have hn : n = Node.planner := h
  subst hn
  have h0 : s.refinement_count = 0 := hZ (Or.inl rfl)
  simp only [step]
  rcases harch : s.architectural_decision with _ | d
  · rw [planner_noarch s (o k).plan harch]
    exact h0
  · rw [(planner_counters s (o k).plan d harch).2.2.2]
    split
    · rfl
    · exact h0

/-- C3 witness: the planner execution at step 1 of a concrete run leaves
the refinement counter at 0. -/
theorem c3_witness : (runCfg oHappy initState 2).state.refinement_count = 0 :=
  c3_planner_run_resets_refinement oHappy initState 1 (by decide)

/-- C3 counterexample: on an arbitrary state with a nonzero refinement
counter at the second iteration, the planner increments the
clarification counter yet leaves the refinement counter nonzero — the
claim fails as a statement about all states. -/
theorem c3_counterexample :
    (planner_agent_node s3dirty r3plan).planner_iteration_count
      = s3dirty.planner_iteration_count + 1
    ∧ (planner_agent_node s3dirty r3plan).refinement_count ≠ 0 := by
  refine ⟨by decide, by decide⟩

/-- C4 (amended): every router is total over the state type — each state,
including states whose optional status fields are unset, maps to a
member of the dispatch table of the router — but an unset status is not
routed to Terminal with the fatal-error slot set: `decide_after_qa`
treats an unset test status like a failure (critique or Terminal by
cap), `decide_after_validation` treats an unset review status like
`fail`, and routers never write the fatal-error slot. -/
theorem c4_router_totality (s : GraphState) :
    (decide_after_architect s = Node.planner ∨ decide_after_architect s = Node.terminal)
    ∧ (decide_after_planner s = Node.human ∨ decide_after_planner s = Node.developer
        ∨ decide_after_planner s = Node.terminal)
    ∧ (decide_after_qa s = Node.validation ∨ decide_after_qa s = Node.critique
        ∨ decide_after_qa s = Node.developer ∨ decide_after_qa s = Node.terminal)
    ∧ (decide_after_validation s = Node.packaging
        ∨ decide_after_validation s = Node.critique
        ∨ decide_after_validation s = Node.terminal)
    ∧ (decide_after_packaging s = Node.handoff ∨ decide_after_packaging s = Node.terminal)
    ∧ (s.test_status = Option.none → decide_after_qa s ≠ Node.validation)
    ∧ (s.validation_status = Option.none → decide_after_validation s ≠ Node.packaging) := by
  refine ⟨architect_router_cases s, ?_, ?_, ?_, packaging_router_cases s, ?_, ?_⟩
  · rcases planner_router_cases s with ⟨h1, -⟩ | h1 | h1
    · exact Or.inl h1
    · exact Or.inr (Or.inl h1)
    · exact Or.inr (Or.inr h1)
  · rcases qa_router_cases s with h1 | h1 | ⟨h1, -⟩ | ⟨h1, -⟩
    · exact Or.inl h1
    · exact Or.inr (Or.inr (Or.inr h1))
    · exact Or.inr (Or.inl h1)
    · exact Or.inr (Or.inr (Or.inl h1))
  · rcases validation_router_cases s with h1 | h1 | ⟨h1, -⟩
    · exact Or.inl h1
    · exact Or.inr (Or.inr h1)
    · exact Or.inr (Or.inl h1)
  · intro hnone hval
    have hsucc := qa_validation_guard s hval
    rw [hnone] at hsucc
    simp at hsucc
  · intro hnone hval
    have hpass := validation_packaging_guard s hval
    rw [hnone] at hpass
    simp at hpass

/-- C4 witness: at the concrete unset-status state, the routers do not
advance to validation or packaging. -/
theorem c4_witness :
    decide_after_qa s4unset ≠ Node.validation
    ∧ decide_after_validation s4unset ≠ Node.packaging :=
  ⟨(c4_router_totality s4unset).2.2.2.2.2.1 rfl,
   (c4_router_totality s4unset).2.2.2.2.2.2 rfl⟩

/-- C4 counterexample: a state with the test status unset and budget left
is routed to the critique stage, not to Terminal, and no fatal error is
set — the claim that an invalid combination is "routed to Terminal with
the fatal-error slot set" fails. -/
theorem c4_counterexample :
    decide_after_qa s4unset = Node.critique
    ∧ s4unset.test_status = Option.none
    ∧ s4unset.current_error = Option.none := by
  refine ⟨by decide, by decide, by decide⟩

/-- C5: the post-validation router advances to packaging iff the review
passed; on `error` it returns Terminal immediately, regardless of the
refinement counter; on `fail` it returns critique iff refinement budget
remains, else Terminal. -/
theorem c5_validation_router (s : GraphState) :
    (decide_after_validation s = Node.packaging
      ↔ s.validation_status = some ValStatus.pass)
    ∧ (s.validation_status = some ValStatus.error →
        decide_after_validation s = Node.terminal)
    ∧ (s.validation_status = some ValStatus.fail →
        ((decide_after_validation s = Node.critique
            ↔ s.refinement_count < s.max_refinements)
          ∧ (s.max_refinements ≤ s.refinement_count →
              decide_after_validation s = Node.terminal))) := by
  refine ⟨⟨fun h => validation_packaging_guard s h, fun h => ?_⟩, fun h => ?_,
    fun h => ⟨⟨fun h2 => validation_critique_guard s h2, fun h2 => ?_⟩, fun h2 => ?_⟩⟩
  · unfold decide_after_validation
    rw [if_pos h]
  · unfold decide_after_validation
    rw [if_neg (by simp [h]), if_pos h]
  · unfold decide_after_validation
    rw [if_neg (by simp [h]), if_neg (by simp [h]), if_pos h2]
  · unfold decide_after_validation
    rw [if_neg (by simp [h]), if_neg (by simp [h]), if_neg (by omega)]

/-- C5 witness: a failed review with remaining budget goes to critique. -/
theorem c5_witness : decide_after_validation s5fail = Node.critique :=
  ((c5_validation_router s5fail).2.2 (by decide)).1.mpr (by decide)

/-- C6 (amended): provided the fatal-error slot does not hold a planner
error, the post-planner router returns the suspension stage iff there
are outstanding questions below the outer cap; Terminal when questions
remain at the cap; the downstream stage iff there are no questions and a
non-empty planned task description; and Terminal when there is neither a
question nor a plan.  With a planner error recorded the router returns
Terminal regardless. -/
theorem c6_planner_router (s : GraphState)
    (herr : errContains s.current_error "Planner Error" = false) :
    (decide_after_planner s = Node.human
      ↔ (listTruthy s.clarification_questions_for_user = true
          ∧ s.planner_iteration_count < s.max_planner_iterations))
    ∧ (listTruthy s.clarification_questions_for_user = true →
        s.max_planner_iterations ≤ s.planner_iteration_count →
        decide_after_planner s = Node.terminal)
    ∧ (decide_after_planner s = Node.developer
        ↔ (listTruthy s.clarification_questions_for_user = false
            ∧ strTruthy s.planned_task_description = true))
    ∧ (listTruthy s.clarification_questions_for_user = false →
        strTruthy s.planned_task_description = false →
        decide_after_planner s = Node.terminal) := by
  unfold decide_after_planner
  rw [if_neg (by simp [herr])]
  refine ⟨⟨?_, ?_⟩, ?_, ⟨?_, ?_⟩, ?_⟩
  · intro h
    split at h
    · rename_i hcond
      exact hcond
    · split at h
      · exact absurd h (by decide)
      · split at h
        · exact absurd h (by decide)
        · exact absurd h (by decide)
  · rintro ⟨hq, hlt⟩
    rw [if_pos ⟨hq, hlt⟩]
  · intro hq hge
    rw [if_neg (by rintro ⟨-, hlt⟩; omega), if_pos ⟨hq, hge⟩]
  · intro h
    split at h
    · exact absurd h (by decide)
    · split at h
      · exact absurd h (by decide)
      · split at h
        · rename_i h1 h2 hp
          refine ⟨?_, hp⟩
          cases hqq : listTruthy s.clarification_questions_for_user with
          | false => rfl
          | true =>
            rcases Nat.lt_or_ge s.planner_iteration_count s.max_planner_iterations with
              hlt | hge2
            · exact absurd ⟨hqq, hlt⟩ h1
            · exact absurd ⟨hqq, hge2⟩ h2
        · exact absurd h (by decide)
  · rintro ⟨hq, hp⟩
    rw [if_neg (by rintro ⟨hq2, -⟩; rw [hq] at hq2; cases hq2),
        if_neg (by rintro ⟨hq2, -⟩; rw [hq] at hq2; cases hq2),
        if_pos hp]
  · intro hq hp
    rw [if_neg (by rintro ⟨hq2, -⟩; rw [hq] at hq2; cases hq2),
        if_neg (by rintro ⟨hq2, -⟩; rw [hq] at hq2; cases hq2),
        if_neg (by simp [hp])]

/-- C6 witness: outstanding questions below the cap and a clean error
slot route to the suspension stage. -/
theorem c6_witness : decide_after_planner s6clean = Node.human :=
  (c6_planner_router s6clean (by decide)).1.mpr (by decide)

/-- C6 counterexample: a state with outstanding questions below the outer
cap whose fatal-error slot holds a planner error is routed to Terminal,
not to the suspension stage — the claimed "suspension iff questions and
budget" fails as stated. -/
theorem c6_counterexample :
    decide_after_planner s6err = Node.terminal
    ∧ listTruthy s6err.clarification_questions_for_user = true
    ∧ s6err.planner_iteration_count < s6err.max_planner_iterations := by
  refine ⟨by decide, by decide, by decide⟩

/-- C7: for every input and every behaviour of the executed code, the
code-tester tool returns a result whose status is one of the four
documented values — success, compilation_error, runtime_error, or
test_fail — and in particular never tool_error; exceptions raised by the
executed code are captured into a runtime_error result rather than
escaping. -/
theorem c7_code_tester_status (code fname : String) (ins : List Val)
    (expected : Val) (env : ExecEnv) :
    ((code_tester_tool code fname ins expected env).status = TestStatus.success
      ∨ (code_tester_tool code fname ins expected env).status = TestStatus.compilation_error
      ∨ (code_tester_tool code fname ins expected env).status = TestStatus.runtime_error
      ∨ (code_tester_tool code fname ins expected env).status = TestStatus.test_fail)
    ∧ (code_tester_tool code fname ins expected env).status ≠ TestStatus.tool_error := by
  unfold code_tester_tool
  split
  · exact ⟨Or.inr (Or.inl rfl), by decide⟩
  · cases env with
    | raisesOnExec m =>
      dsimp only
      exact ⟨Or.inr (Or.inr (Or.inl rfl)), by simp⟩
    | noFn =>
      dsimp only
      exact ⟨Or.inr (Or.inl rfl), by simp⟩
    | raisesOnCall m =>
      dsimp only
      exact ⟨Or.inr (Or.inr (Or.inl rfl)), by simp⟩
    | returns v =>
      dsimp only
      split
      · exact ⟨Or.inl rfl, by simp⟩
      · exact ⟨Or.inr (Or.inr (Or.inr rfl)), by simp⟩

/-- C8 (amended): whenever run-to-completion sits at Terminal, the final
state record carries a success indication, or a non-empty fatal-error
slot, or a status/counter combination identifying the failing phase
(validation_status = error; refinement cap reached with a non-success
test status or a failed review; planner cap reached with outstanding
questions; or an architectural decision without a usable language) —
but not necessarily a fatal-error slot: silent-by-error-slot failures
exist. -/
theorem c8_terminal_state_explained (o : Nat → Resp) (s₀ : GraphState) (k : Nat)
    (h : (runCfg o s₀ k).node = Node.terminal) :
    explainedTerminal (runCfg o s₀ k).state :=
  run_terminal_explained o s₀ k h

/-- C8 witness: the explanation theorem applied to a concrete capped run. -/
theorem c8_witness : explainedTerminal (runCfg oFail sFailInit 4).state :=
  c8_terminal_state_explained oFail sFailInit 4 (by decide)

/-- C8 counterexample: a concrete run that exhausts the refinement cap
reaches Terminal with an empty fatal-error slot and no success
indication — the claim that every terminal state carries either a
success indication or a non-empty fatal-error slot fails. -/
theorem c8_counterexample :
    (runCfg oFail sFailInit 4).node = Node.terminal
    ∧ (runCfg oFail sFailInit 4).state.current_error = Option.none
    ∧ ¬ successIndication (runCfg oFail sFailInit 4).state := by
  refine ⟨by decide, by decide, ?_⟩
  unfold successIndication
  decide

/-- C9: along every run from an initialized record (empty feedback log),
each engine step leaves the previous feedback log as a prefix of the new
one — the log is never truncated or overwritten — and whenever the
critique stage runs with code present it strictly appends entries. -/
theorem c9_feedback_append_only (o : Nat → Resp) (s₀ : GraphState)
    (hfb : s₀.feedback_history = []) :
    (∀ k, (runCfg o s₀ k).state.feedback_history
        <+: (runCfg o s₀ (k + 1)).state.feedback_history)
    ∧ (∀ (s : GraphState) (t : String), strTruthy s.generated_code = true →
        s.feedback_history.length < (critique_agent_node s t).feedback_history.length) :=
  ⟨run_feedback_extends o s₀ hfb, critique_strictly_appends⟩

/-- C9 witness: a concrete step of a concrete run extends the log. -/
theorem c9_witness :
    (runCfg oHappy initState 2).state.feedback_history
      <+: (runCfg oHappy initState 3).state.feedback_history :=
  (c9_feedback_append_only oHappy initState rfl).1 2

/-- C10: the validation stage never reports a pass together with recorded
issues: a `pass` status implies an empty issue list, and when the
reviewing service reports passed=true with a non-empty issue list the
stage downgrades the status to `fail`. -/
theorem c10_validation_pass_consistent (s : GraphState) (r : ValOut) :
    ((validation_agent_node s r).validation_status = some ValStatus.pass →
      (validation_agent_node s r).validation_issues = some [])
    ∧ (∀ issues : List String, strTruthy s.generated_code = true → issues ≠ [] →
        (validation_agent_node s (ValOut.parsed true issues)).validation_status
          = some ValStatus.fail) := by
  constructor
  · intro h
    unfold validation_agent_node at h ⊢
    by_cases hcode : (!strTruthy s.generated_code) = true
    · rw [if_pos hcode] at h
      simp at h
    · rw [if_neg hcode] at h ⊢
      cases r with
      | invalid raw =>
        simp at h
      | parsed passed issues =>
        dsimp only at h ⊢
        split at h
        · rename_i hcond
          have hemp : issues = [] := by
            have h2 := hcond.2
            cases issues with
            | nil => rfl
            | cons a l => cases h2
          subst hemp
          rw [if_pos hcond]
        · split at h
          · simp at h
          · split at h
            · simp at h
            · simp at h
  · intro issues hcode hne
    have hemp : issues.isEmpty = false := by
      cases issues with
      | nil => exact absurd rfl hne
      | cons a l => rfl
    unfold validation_agent_node
    rw [if_neg (by simp [hcode])]
    dsimp only
    rw [if_neg (by rintro ⟨-, h2⟩; rw [hemp] at h2; cases h2),
        if_pos ⟨rfl, by rw [hemp]; rfl⟩]

/-- C10 witness: passed=true with one issue is downgraded to `fail`. -/
theorem c10_witness :
    (validation_agent_node s10code (ValOut.parsed true ["missing docstring"])).validation_status
      = some ValStatus.fail :=
  (c10_validation_pass_consistent s10code (ValOut.parsed true ["missing docstring"])).2
    ["missing docstring"] (by decide) (by decide)

end Factory
